import Mathlib

/-!
Verification of the FinMark preprocessing pipeline
(`scripts/preprocess_raw_data.py`).

The pipeline operates on pandas DataFrames.  We embed a DataFrame as a
`Table`: an ordered list of column names together with rows, each row an
association list from column names to `Cell` values.  A cell is missing
(`na`, pandas NaN), a string, or a number (pandas numerics are modelled
by `Rat`).
-/

/-- A single DataFrame cell: missing (NaN), a string, or a numeric value. -/
inductive Cell where
  | na : Cell
  | str : String → Cell
  | num : Rat → Cell
deriving DecidableEq

/-- `pd.isna` on a cell. -/
def Cell.isNA : Cell → Bool
  | Cell.na => true
  | _ => false

/-- Is the cell an actual number. -/
def Cell.isNum : Cell → Bool
  | Cell.num _ => true
  | _ => false

/-- The cell is numeric or missing (not a string); the state of a column
after a numeric coercion pass. -/
def Cell.numOrNA : Cell → Bool
  | Cell.str _ => false
  | _ => true

/-- The cell holds an integer-valued number. -/
def Cell.isIntVal : Cell → Bool
  | Cell.num q => q.den == 1
  | _ => false

/-- A DataFrame row: an association list from column names to cells. -/
abbrev Row : Type := List (String × Cell)

/-- The column names of a row, in order. -/
def keys (r : Row) : List String := r.map Prod.fst

/-- Reading `row[c]`: the first entry with key `c`, NaN when absent. -/
def getCell (r : Row) (c : String) : Cell :=
  match r with
  | [] => Cell.na
  | (k, v) :: rest => if k = c then v else getCell rest c

/-- Writing `row[c] = v`, keeping the column order. -/
def setCell (r : Row) (c : String) (v : Cell) : Row :=
  r.map (fun p => if p.1 = c then (p.1, v) else p)

/-- A DataFrame: ordered column names plus rows. -/
structure Table where
  cols : List String
  rows : List Row
deriving DecidableEq

/-- Well-formedness of a table: column names are distinct and every row
has exactly the table columns, in order. -/
def Table.WF (t : Table) : Prop :=
  t.cols.Nodup ∧ ∀ r ∈ t.rows, keys r = t.cols

instance (t : Table) : Decidable t.WF := by
  unfold Table.WF; infer_instance

/-- `ID_VARS` from the source: the essential identifying columns. -/
def ID_VARS : List String :=
  ["date", "users_active", "total_sales", "new_customers", "report_generated"]

/-- `FINAL_COLUMNS` from the source: the fixed output column order. -/
def FINAL_COLUMNS : List String := ID_VARS ++ ["region", "regional_sales", "product_id"]

/-- `is_wide_format`: the table is wide when it has a column `col_6`. -/
def is_wide_format (t : Table) : Bool := t.cols.contains "col_6"

/-!  ## The adaptive unpivoter (`unpivot_data`)

Each wide row is scanned left to right over its `col_*` cells, keeping an
in-progress accumulator `current_record_parts` (here `Parts`).  A string
cell starts a fresh group, flushing the previous accumulator when it
already holds a region; a numeric cell fills the first empty slot of
`regional_sales` then `product_id`; NaN cells are skipped.
-/

/-- The in-progress accumulator `current_record_parts` of `unpivot_data`:
each key of the Python dict is an `Option` field. -/
structure Parts where
  region : Option String := none
  regional_sales : Option Rat := none
  product_id : Option Rat := none
deriving DecidableEq

/-- One step of the scan in `unpivot_data` (lines 43-63): the state is the
accumulator plus the records flushed so far for this row. -/
def stepCell : Parts × List Parts → Cell → Parts × List Parts
  | (acc, out), Cell.na => (acc, out)
  | (acc, out), Cell.str s =>
    match acc.region with
    | some _ => ({ region := some s, regional_sales := none, product_id := none }, out ++ [acc])
    | none => ({ region := some s, regional_sales := none, product_id := none }, out)
  | (acc, out), Cell.num q =>
    match acc.region with
    | none => (acc, out)
    | some _ =>
      if acc.regional_sales.isNone then ({ acc with regional_sales := some q }, out)
      else if acc.product_id.isNone then ({ acc with product_id := some q }, out)
      else (acc, out)

/-- The accumulators flushed for one row: the scan over the group cells
followed by the final flush when the accumulator holds a region
(lines 43-69). -/
def rowParts (cells : List Cell) : List Parts :=
  let st := cells.foldl stepCell ({ region := none, regional_sales := none, product_id := none }, [])
  if st.1.region.isSome then st.2 ++ [st.1] else st.2

/-- Building one record from the row identifying fields and a flushed
accumulator (`record = base_data.copy(); record.update(parts)`); only
keys present in the dict appear, in insertion order. -/
def partsRecord (base : Row) (p : Parts) : Option Row :=
  p.region.map (fun reg =>
    base ++ [("region", Cell.str reg)]
      ++ (p.regional_sales.map (fun q => ("regional_sales", Cell.num q))).toList
      ++ (p.product_id.map (fun q => ("product_id", Cell.num q))).toList)

/-- All records produced by `unpivot_data` for one row. -/
def unpivotRowRecords (base : Row) (cells : List Cell) : List Row :=
  (rowParts cells).filterMap (partsRecord base)

/-- Column set of `pd.DataFrame(list_of_dicts)`: union of the record keys
in order of first appearance. -/
def unionKeys (rs : List Row) : List String :=
  rs.foldl (fun acc r => r.foldl (fun a p => if p.1 ∈ a then a else a ++ [p.1]) acc) []

/-- A record materialised as a row of the DataFrame: every column, with
NaN for keys the record lacks. -/
def alignRow (cols : List String) (r : Row) : Row :=
  cols.map (fun c => (c, getCell r c))

/-- `pd.DataFrame(list_of_dicts)`. -/
def df_of_records (rs : List Row) : Table :=
  { cols := unionKeys rs, rows := rs.map (alignRow (unionKeys rs)) }

/-- `unpivot_data` (lines 25-73): per row, the identifying fields present
are carried over and the `col_*` cells are scanned into records. -/
def unpivot_data (t : Table) : Table :=
  let idv := ID_VARS.filter (fun c => t.cols.contains c)
  let rcols := t.cols.filter (fun c => c.startsWith "col_")
  df_of_records (t.rows.flatMap (fun r =>
    unpivotRowRecords (idv.map (fun c => (c, getCell r c))) (rcols.map (getCell r))))

/-! ## Helper lemmas for the unpivot scan -/

/-- NaN cells are skipped: the scan only sees the non-missing cells. -/
theorem foldl_stepCell_filter (cells : List Cell) (st : Parts × List Parts) :
    cells.foldl stepCell st = (cells.filter (fun c => !c.isNA)).foldl stepCell st := by
  induction cells generalizing st with
  | nil => rfl
  | cons c rest ih =>
    cases c with
    | na => simpa [Cell.isNA] using ih st
    | str s => simpa [Cell.isNA] using ih (stepCell st (Cell.str s))
    | num q => simpa [Cell.isNA] using ih (stepCell st (Cell.num q))

/-- Claim C1 scenario data: the identifying fields of the sample row. -/
def sampleBase : Row :=
  [("date", Cell.str "2024-01-01"), ("users_active", Cell.num 10),
   ("total_sales", Cell.num 500), ("new_customers", Cell.num 2),
   ("report_generated", Cell.num 1)]

/-- C1: a row whose group columns hold exactly one complete group (a text
region, then two numbers) yields exactly one record carrying the
identifying fields and those three values unchanged. -/
theorem unpivot_complete_group (base : Row) (cells : List Cell) (r : String) (s p : Rat)
    (h : cells.filter (fun c => !c.isNA) = [Cell.str r, Cell.num s, Cell.num p]) :
    unpivotRowRecords base cells =
      [base ++ [("region", Cell.str r), ("regional_sales", Cell.num s),
                ("product_id", Cell.num p)]] := by
  unfold unpivotRowRecords rowParts
  rw [foldl_stepCell_filter, h]
  simp [stepCell, partsRecord]

/-- C1 witness: the spec scenario row `col_1="East", col_2=100, col_3=5`. -/
theorem unpivot_complete_group_witness :
    unpivotRowRecords sampleBase [Cell.str "East", Cell.num 100, Cell.num 5] =
      [sampleBase ++ [("region", Cell.str "East"), ("regional_sales", Cell.num 100),
                      ("product_id", Cell.num 5)]] :=
  unpivot_complete_group sampleBase _ "East" 100 5 rfl

/-- C3: a text cell met while the accumulator already holds a region
flushes the accumulator (complete or not) and restarts with the new
region; after the scan an accumulator holding a region is flushed. -/
theorem unpivot_flush_rules (acc : Parts) (out : List Parts) (s : String)
    (cells : List Cell) (h : acc.region.isSome = true) :
    stepCell (acc, out) (Cell.str s) =
      ({ region := some s, regional_sales := none, product_id := none }, out ++ [acc]) ∧
    ((cells.foldl stepCell
        ({ region := none, regional_sales := none, product_id := none }, [])).1.region.isSome = true →
      rowParts cells =
        (cells.foldl stepCell
          ({ region := none, regional_sales := none, product_id := none }, [])).2 ++
        [(cells.foldl stepCell
          ({ region := none, regional_sales := none, product_id := none }, [])).1]) := by
  constructor
  · match hacc : acc.region with
    | some r0 => simp [stepCell, hacc]
    | none => rw [hacc] at h; simp at h
  · intro hfin
    unfold rowParts
    rw [if_pos hfin]

/-- C3 witness: a sales-holding accumulator flushes on a new region name,
and a trailing bare region flushes at end of scan. -/
theorem unpivot_flush_rules_witness :
    stepCell ({ region := some "East", regional_sales := some 100, product_id := none }, [])
        (Cell.str "West") =
      ({ region := some "West", regional_sales := none, product_id := none },
       [{ region := some "East", regional_sales := some 100, product_id := none }]) ∧
    rowParts [Cell.str "East"] =
      [{ region := some "East", regional_sales := none, product_id := none }] := by
  have h := unpivot_flush_rules
    { region := some "East", regional_sales := some 100, product_id := none }
    [] "West" [Cell.str "East"] rfl
  exact ⟨h.1, by simpa using h.2 rfl⟩

/-- C2 amended: a row whose non-missing group cells are a region followed
by a single number yields one record in which that number fills
`regional_sales` (whatever source column it came from) and `product_id`
is absent. -/
theorem unpivot_shifted_number_fills_sales (base : Row) (cells : List Cell)
    (r : String) (p : Rat)
    (h : cells.filter (fun c => !c.isNA) = [Cell.str r, Cell.num p]) :
    unpivotRowRecords base cells =
      [base ++ [("region", Cell.str r), ("regional_sales", Cell.num p)]] := by
  unfold unpivotRowRecords rowParts
  rw [foldl_stepCell_filter, h]
  simp [stepCell, partsRecord]

/-- C2 amended witness: the scenario row with `col_2` empty. -/
theorem unpivot_shifted_number_fills_sales_witness :
    unpivotRowRecords sampleBase [Cell.str "East", Cell.na, Cell.num 5] =
      [sampleBase ++ [("region", Cell.str "East"), ("regional_sales", Cell.num 5)]] :=
  unpivot_shifted_number_fills_sales sampleBase _ "East" 5 rfl

/-!  ## The data-quality remediator (`clean_and_validate_data`)

The external pandas parsing routines are modelled by executable
simplifications covering the value shapes this repository feeds them.
-/

/-- Numeric value of a list of decimal digit characters. -/
def digitsVal (cs : List Char) : Nat :=
  cs.foldl (fun a c => a * 10 + (c.toNat - 48)) 0

/-- Models `pd.to_numeric` string parsing: an optional minus sign, then
digits with an optional fractional part.  Anything else (for example
"N/A") fails to parse. -/
def parseNumAux (neg : Bool) (body : List Char) : Option Rat :=
  match body.span (fun c => c.isDigit) with
  | (whole, rest) =>
    if whole.isEmpty then none
    else
      let sgn : Rat := if neg then -1 else 1
      match rest with
      | [] => some (sgn * (digitsVal whole : Rat))
      | '.' :: fracs =>
        if fracs.all (fun c => c.isDigit) then
          some (sgn * ((digitsVal whole : Rat) + (digitsVal fracs : Rat) / ((10 : Rat) ^ fracs.length)))
        else none
      | _ => none

/-- Models `pd.to_numeric` on one string. -/
def parseNum? (s : String) : Option Rat :=
  match s.toList with
  | [] => none
  | '-' :: rest => parseNumAux true rest
  | cs => parseNumAux false cs

/-- Models `pd.to_numeric(col, errors="coerce")` on one cell: numbers and
NaN pass through, strings parse or coerce to NaN. -/
def toNumericCell : Cell → Cell
  | Cell.na => Cell.na
  | Cell.num q => Cell.num q
  | Cell.str s =>
    match parseNum? s with
    | some q => Cell.num q
    | none => Cell.na

/-- Tens-and-units value of two digit characters. -/
def twoDigit (a b : Char) : Nat := (a.toNat - 48) * 10 + (b.toNat - 48)

/-- Models the date strings `pd.to_datetime` accepts in this data:
ISO `YYYY-MM-DD` with a plausible month and day. -/
def validDateStr (s : String) : Bool :=
  match s.toList with
  | [y1, y2, y3, y4, '-', m1, m2, '-', d1, d2] =>
    ([y1, y2, y3, y4, m1, m2, d1, d2].all (fun c => c.isDigit)) &&
    Nat.ble 1 (twoDigit m1 m2) && Nat.ble (twoDigit m1 m2) 12 &&
    Nat.ble 1 (twoDigit d1 d2) && Nat.ble (twoDigit d1 d2) 31
  | _ => false

/-- Models `pd.to_datetime(cell, errors="coerce").notnull()`: NaN gives
NaT, numbers parse as epoch timestamps, strings must look like dates. -/
def dateParses : Cell → Bool
  | Cell.na => false
  | Cell.num _ => true
  | Cell.str s => validDateStr s

/-- `astype(int)` on a numeric value truncates toward zero. -/
def truncRat (q : Rat) : Int :=
  if 0 ≤ q.num then ((q.num.toNat / q.den : Nat) : Int)
  else -(((q.num.natAbs / q.den : Nat) : Int))

/-- One entry of the `RemediationReport`: the sampled warnings printed by
the pipeline, each with the affected column, count and row sample. -/
inductive Warning where
  | missingColumn (col : String)
  | emptyTable
  | invalidDates (count : Nat) (sample : List Row)
  | invalidRegions (count : Nat) (sample : List Row)
  | nonNumeric (col : String) (count : Nat) (sample : List Row)
deriving DecidableEq

/-- Date validation (lines 89-94): rows whose date fails to parse are
reported (count plus a sample of up to 10) and dropped. -/
def datePass (rows : List Row) : List Row × List Warning :=
  let bad := rows.filter (fun r => !(dateParses (getCell r "date")))
  (rows.filter (fun r => dateParses (getCell r "date")),
   if bad.isEmpty then [] else [Warning.invalidDates bad.length (bad.take 10)])

/-- The non-missing values of the `region` column, in row order
(`value_counts` ignores NaN). -/
def regionVals (rows : List Row) : List Cell :=
  (rows.map (fun r => getCell r "region")).filter (fun c => !c.isNA)

/-- The distinct values of a list, in order of first occurrence. -/
def distinctVals (l : List Cell) : List Cell :=
  l.foldl (fun acc v => if v ∈ acc then acc else acc ++ [v]) []

/-- Models `value_counts().nlargest(4).index`: the (up to) four most
frequent distinct values; ties keep first-occurrence order. -/
def top4Regions (l : List Cell) : List Cell :=
  ((distinctVals l).insertionSort (fun a b => l.count b ≤ l.count a)).take 4

/-- The mask of rows with an unexpected region name (line 100). -/
def regionBad (valid : List Cell) (r : Row) : Bool :=
  !(getCell r "region").isNA && !(valid.contains (getCell r "region"))

/-- Categorical validation (lines 96-106): when a `region` column exists
and is non-empty, non-missing values outside the four most common ones
are reported and rewritten to "Unknown". -/
def regionPass (cols : List String) (rows : List Row) : List Row × List Warning :=
  if cols.contains "region" && !rows.isEmpty then
    let valid := top4Regions (regionVals rows)
    let bad := rows.filter (regionBad valid)
    (rows.map (fun r => if regionBad valid r then setCell r "region" (Cell.str "Unknown") else r),
     if bad.isEmpty then [] else [Warning.invalidRegions bad.length (bad.take 10)])
  else (rows, [])

/-- The numeric columns checked by the numeric validation loop. -/
def numeric_cols : List String :=
  ["users_active", "total_sales", "new_customers", "regional_sales", "product_id"]

/-- A cell that is non-missing but fails numeric coercion (line 114). -/
def corruptRow (c : String) (r : Row) : Bool :=
  (toNumericCell (getCell r c)).isNA && !(getCell r c).isNA

/-- Numeric validation (lines 108-121): for each numeric column present,
report the rows whose value is non-missing yet not numeric, then coerce
the whole column. -/
def numericPass (cols : List String) (rows : List Row) : List String → List Row × List Warning
  | [] => (rows, [])
  | c :: rest =>
    if cols.contains c then
      let bad := rows.filter (corruptRow c)
      let w : List Warning :=
        if bad.isEmpty then [] else [Warning.nonNumeric c bad.length (bad.take 10)]
      let rows' := rows.map (fun r => setCell r c (toNumericCell (getCell r c)))
      let next := numericPass cols rows' rest
      (next.1, w ++ next.2)
    else numericPass cols rows rest

/-- One column of `df.fillna({...})`: applied only when the column
exists, replacing NaN with the default. -/
def fillStep (cols : List String) (c : String) (d : Cell) (rows : List Row) : List Row :=
  if cols.contains c then
    rows.map (fun r => if (getCell r c).isNA then setCell r c d else r)
  else rows

/-- The dict of `df.fillna({...})` (lines 124-127), in source order. -/
def fillnaDict : List (String × Cell) :=
  [("regional_sales", Cell.num 0), ("product_id", Cell.num (-1)),
   ("users_active", Cell.num 0), ("total_sales", Cell.num 0),
   ("new_customers", Cell.num 0), ("region", Cell.str "Unknown")]

/-- The defaulting pass (lines 124-127): each column of the dict that
exists in the table has its NaN entries replaced by the default. -/
def fillnaPass (cols : List String) (rows : List Row) : List Row :=
  fillnaDict.foldl (fun rs p => fillStep cols p.1 p.2 rs) rows

/-- `astype(int)` on one cell: a number truncates toward zero, anything
else raises. -/
def castIntCell : Cell → Except String Cell
  | Cell.num q => Except.ok (Cell.num ((truncRat q : Int) : Rat))
  | Cell.na => Except.error "cannot convert non-finite values to integer"
  | Cell.str _ => Except.error "invalid literal for int"

/-- `df[c] = df[c].astype(int)` over all rows; any failure aborts. -/
def castColumn (c : String) : List Row → Except String (List Row)
  | [] => Except.ok []
  | r :: rest =>
    match castIntCell (getCell r c) with
    | Except.ok v =>
      match castColumn c rest with
      | Except.ok rs => Except.ok (setCell r c v :: rs)
      | Except.error e => Except.error e
    | Except.error e => Except.error e
  
/-- The integer-cast columns of the final loop (lines 129-130). -/
def cast_cols : List String := ["product_id", "users_active", "new_customers"]

/-- The final cast loop: `df[c]` raises a KeyError when the column is
absent, otherwise the column is cast to int. -/
def castPass (cols : List String) (rows : List Row) : List String → Except String (List Row)
  | [] => Except.ok rows
  | c :: rest =>
    if cols.contains c then
      match castColumn c rows with
      | Except.ok rows' => castPass cols rows' rest
      | Except.error e => Except.error e
    else Except.error ("KeyError: " ++ c)

/-- `clean_and_validate_data` (lines 75-133): empty guard, then the date,
region and numeric passes, defaulting, and the integer casts; any raised
exception is the `Except.error` case. -/
def clean_and_validate_data (t : Table) : Except String (Table × List Warning) :=
  if t.rows.isEmpty then Except.ok (t, [Warning.emptyTable])
  else if t.cols.contains "date" then
    let rows1 := (datePass t.rows).1
    let rows2 := (regionPass t.cols rows1).1
    let rows3 := (numericPass t.cols rows2 numeric_cols).1
    let rows4 := fillnaPass t.cols rows3
    match castPass t.cols rows4 cast_cols with
    | Except.ok rows5 =>
      Except.ok ({ cols := t.cols, rows := rows5 },
        (datePass t.rows).2 ++ (regionPass t.cols rows1).2 ++
          (numericPass t.cols rows2 numeric_cols).2)
    | Except.error e => Except.error e
  else Except.error "KeyError: date"

/-- `validate_schema` (lines 13-23): each absent identifying column is
added with default 0 (a warning is recorded); nothing else changes. -/
def validate_schema (t : Table) : Table × List Warning :=
  ID_VARS.foldl
    (fun acc c =>
      if acc.1.cols.contains c then acc
      else ({ cols := acc.1.cols ++ [c],
              rows := acc.1.rows.map (fun r => r ++ [(c, Cell.num 0)]) },
            acc.2 ++ [Warning.missingColumn c]))
    (t, [])

/-- `save_data` (lines 135-140): `df[FINAL_COLUMNS]` raises when a final
column is absent; otherwise the table is written in the fixed order. -/
def save_data (t : Table) : Except String Table :=
  if FINAL_COLUMNS.all (fun c => t.cols.contains c) then
    Except.ok { cols := FINAL_COLUMNS,
                rows := t.rows.map (fun r => FINAL_COLUMNS.map (fun c => (c, getCell r c))) }
  else Except.error "KeyError: missing output column"

/-- The tail of `main` from the table handed to the remediator: clean
then save; any exception is caught by the catch-all handler and no
output is produced (`none`). -/
def finish (processed : Table) : Option Table :=
  match clean_and_validate_data processed with
  | Except.ok (cleaned, _) =>
    match save_data cleaned with
    | Except.ok saved => some saved
    | Except.error _ => none
  | Except.error _ => none

/-- `main` (lines 142-166) after a successful `read_csv`: schema
validation, the conditional unpivot, then `finish`. -/
def process_table (raw : Table) : Option Table :=
  let v := (validate_schema raw).1
  if is_wide_format v then finish (unpivot_data v) else finish v

/-! ## Basic lemmas about rows -/

theorem keys_cons (k : String) (w : Cell) (rest : Row) :
    keys ((k, w) :: rest) = k :: keys rest := rfl

theorem setCell_cons (k : String) (w : Cell) (rest : Row) (c : String) (v : Cell) :
    setCell ((k, w) :: rest) c v =
      (if k = c then (k, v) else (k, w)) :: setCell rest c v := rfl

theorem getCell_cons (k : String) (w : Cell) (rest : Row) (c : String) :
    getCell ((k, w) :: rest) c = if k = c then w else getCell rest c := rfl

theorem keys_setCell (r : Row) (c : String) (v : Cell) :
    keys (setCell r c v) = keys r := by
  unfold keys setCell
  rw [List.map_map]
  apply List.map_congr_left
  intro p _
  by_cases h : p.1 = c <;> simp [h]

theorem getCell_setCell_self (r : Row) (c : String) (v : Cell) (h : c ∈ keys r) :
    getCell (setCell r c v) c = v := by
  induction r with
  | nil => simp [keys] at h
  | cons p rest ih =>
    obtain ⟨k, w⟩ := p
    rw [setCell_cons]
    by_cases hk : k = c
    · rw [if_pos hk, getCell_cons, if_pos hk]
    · rw [if_neg hk, getCell_cons, if_neg hk]
      rw [keys_cons, List.mem_cons] at h
      rcases h with h | h
      · exact absurd h.symm hk
      · exact ih h

theorem getCell_setCell_ne (r : Row) (c c' : String) (v : Cell) (h : c' ≠ c) :
    getCell (setCell r c v) c' = getCell r c' := by
  induction r with
  | nil => rfl
  | cons p rest ih =>
    obtain ⟨k, w⟩ := p
    rw [setCell_cons, getCell_cons]
    by_cases hk : k = c
    · have hk' : ¬ k = c' := by rw [hk]; exact fun hc => h hc.symm
      rw [if_pos hk, getCell_cons, if_neg hk', if_neg hk', ih]
    · rw [if_neg hk, getCell_cons, ih]

theorem setCell_not_mem (r : Row) (c : String) (v : Cell) (h : c ∉ keys r) :
    setCell r c v = r := by
  induction r with
  | nil => rfl
  | cons p rest ih =>
    obtain ⟨k, w⟩ := p
    rw [keys_cons] at h
    have h1 : ¬ k = c := fun hc => h (by rw [hc]; exact List.mem_cons_self c _)
    have h2 : c ∉ keys rest := fun hc => h (List.mem_cons_of_mem _ hc)
    rw [setCell_cons, if_neg h1, ih h2]

theorem setCell_getCell_self (r : Row) (c : String) (h : (keys r).Nodup) :
    setCell r c (getCell r c) = r := by
  induction r with
  | nil => rfl
  | cons p rest ih =>
    obtain ⟨k, w⟩ := p
    rw [keys_cons, List.nodup_cons] at h
    rw [setCell_cons, getCell_cons]
    by_cases hk : k = c
    · rw [if_pos hk, if_pos hk]
      have hni : c ∉ keys rest := by rw [← hk]; exact h.1
      rw [setCell_not_mem rest c w hni]
    · rw [if_neg hk, if_neg hk]
      rw [ih h.2]

theorem getCell_append_left (r r2 : Row) (c : String) (h : c ∈ keys r) :
    getCell (r ++ r2) c = getCell r c := by
  induction r with
  | nil => simp [keys] at h
  | cons p rest ih =>
    obtain ⟨k, w⟩ := p
    rw [List.cons_append, getCell_cons, getCell_cons]
    by_cases hk : k = c
    · rw [if_pos hk, if_pos hk]
    · rw [if_neg hk, if_neg hk]
      rw [keys_cons, List.mem_cons] at h
      rcases h with h | h
      · exact absurd h.symm hk
      · exact ih h

theorem getCell_append_right (r r2 : Row) (c : String) (h : c ∉ keys r) :
    getCell (r ++ r2) c = getCell r2 c := by
  induction r with
  | nil => rfl
  | cons p rest ih =>
    obtain ⟨k, w⟩ := p
    rw [keys_cons] at h
    have h1 : ¬ k = c := fun hc => h (by rw [hc]; exact List.mem_cons_self c _)
    have h2 : c ∉ keys rest := fun hc => h (List.mem_cons_of_mem _ hc)
    rw [List.cons_append, getCell_cons, if_neg h1, ih h2]

/-! ## The top-4 vocabulary -/

theorem foldl_distinct_mem (l : List Cell) (acc : List Cell) (x : Cell) :
    (x ∈ l.foldl (fun acc v => if v ∈ acc then acc else acc ++ [v]) acc) ↔
      (x ∈ acc ∨ x ∈ l) := by
  induction l generalizing acc with
  | nil => simp
  | cons v rest ih =>
    rw [List.foldl_cons]
    by_cases hv : v ∈ acc
    · rw [if_pos hv, ih]
      constructor
      · rintro (h | h)
        · exact Or.inl h
        · exact Or.inr (List.mem_cons_of_mem _ h)
      · rintro (h | h)
        · exact Or.inl h
        · rcases List.mem_cons.mp h with h | h
          · exact Or.inl (h ▸ hv)
          · exact Or.inr h
    · rw [if_neg hv, ih]
      constructor
      · rintro (h | h)
        · rcases List.mem_append.mp h with h | h
          · exact Or.inl h
          · exact Or.inr (List.mem_cons.mpr (Or.inl (List.mem_singleton.mp h)))
        · exact Or.inr (List.mem_cons_of_mem _ h)
      · rintro (h | h)
        · exact Or.inl (List.mem_append.mpr (Or.inl h))
        · rcases List.mem_cons.mp h with h | h
          · exact Or.inl (List.mem_append.mpr (Or.inr (List.mem_singleton.mpr h)))
          · exact Or.inr h

theorem mem_distinctVals (l : List Cell) (x : Cell) :
    x ∈ distinctVals l ↔ x ∈ l := by
  unfold distinctVals
  rw [foldl_distinct_mem]
  simp

/-- The trusted vocabulary only contains values seen in the column. -/
theorem top4_subset (l : List Cell) : ∀ v ∈ top4Regions l, v ∈ l := by
  intro v hv
  have h1 : v ∈ (distinctVals l).insertionSort (fun a b => l.count b ≤ l.count a) :=
    List.take_subset _ _ hv
  exact (mem_distinctVals l v).mp ((List.mem_insertionSort _).mp h1)

/-- Every value kept in the vocabulary is at least as frequent as every
value left out: the vocabulary really is a 4-most-frequent set. -/
theorem top4_dominates (l : List Cell) (v w : Cell) (hv : v ∈ top4Regions l)
    (hw : w ∈ l) (hnw : w ∉ top4Regions l) :
    l.count w ≤ l.count v := by
  haveI hto : IsTotal Cell (fun a b => l.count b ≤ l.count a) :=
    ⟨fun a b => Nat.le_total (l.count b) (l.count a)⟩
  haveI htr : IsTrans Cell (fun a b => l.count b ≤ l.count a) :=
    ⟨fun _ _ _ hab hbc => le_trans hbc hab⟩
  have hsorted : ((distinctVals l).insertionSort
      (fun a b => l.count b ≤ l.count a)).Pairwise (fun a b => l.count b ≤ l.count a) :=
    List.sorted_insertionSort _ _
  have hw' : w ∈ (distinctVals l).insertionSort (fun a b => l.count b ≤ l.count a) :=
    (List.mem_insertionSort _).mpr ((mem_distinctVals l w).mpr hw)
  have hsplit := List.take_append_drop 4
    ((distinctVals l).insertionSort (fun a b => l.count b ≤ l.count a))
  have hpw : (((distinctVals l).insertionSort (fun a b => l.count b ≤ l.count a)).take 4 ++
      ((distinctVals l).insertionSort (fun a b => l.count b ≤ l.count a)).drop 4).Pairwise
        (fun a b => l.count b ≤ l.count a) := by
    rw [hsplit]; exact hsorted
  have hdom := (List.pairwise_append.mp hpw).2.2
  have hwdrop : w ∈ ((distinctVals l).insertionSort
      (fun a b => l.count b ≤ l.count a)).drop 4 := by
    have := List.mem_append.mp (by rw [hsplit]; exact hw')
    rcases this with h | h
    · exact absurd h hnw
    · exact h
  exact hdom v hv w hwdrop

/-! ## Per-pass lemmas -/

theorem regionPass_idx (cols : List String) (rows : List Row) (i : Nat) (r r' : Row)
    (h1 : rows[i]? = some r) (h2 : ((regionPass cols rows).1)[i]? = some r') :
    keys r' = keys r ∧ (∀ c, c ≠ "region" → getCell r' c = getCell r c) ∧
    (r' = r ∨ r' = setCell r "region" (Cell.str "Unknown")) := by
  unfold regionPass at h2
  by_cases hg : (cols.contains "region" && !rows.isEmpty) = true
  · rw [if_pos hg] at h2
    simp only [List.getElem?_map, h1, Option.map_some'] at h2
    have h2' := Option.some.inj h2
    by_cases hb : regionBad (top4Regions (regionVals rows)) r = true
    · rw [if_pos hb] at h2'
      refine ⟨?_, ?_, Or.inr h2'.symm⟩
      · rw [← h2', keys_setCell]
      · intro c hc
        rw [← h2', getCell_setCell_ne _ _ _ _ hc]
    · rw [if_neg hb] at h2'
      exact ⟨by rw [h2'], fun c _ => by rw [h2'], Or.inl h2'.symm⟩
  · rw [if_neg hg] at h2
    rw [h1] at h2
    have h2' := Option.some.inj h2
    exact ⟨by rw [h2'], fun c _ => by rw [h2'], Or.inl h2'.symm⟩

theorem regionPass_length (cols : List String) (rows : List Row) :
    (regionPass cols rows).1.length = rows.length := by
  unfold regionPass
  by_cases hg : (cols.contains "region" && !rows.isEmpty) = true
  · rw [if_pos hg]; exact List.length_map _ _
  · rw [if_neg hg]

/-- In the active region pass, a bad row is rewritten to "Unknown" and a
good or missing row is untouched. -/
theorem regionPass_active_idx (cols : List String) (rows : List Row)
    (hcol : cols.contains "region" = true) (hne : rows ≠ []) (i : Nat) (r r' : Row)
    (h1 : rows[i]? = some r) (h2 : ((regionPass cols rows).1)[i]? = some r') :
    r' = (if regionBad (top4Regions (regionVals rows)) r = true
          then setCell r "region" (Cell.str "Unknown") else r) := by
  unfold regionPass at h2
  have hg : (cols.contains "region" && !rows.isEmpty) = true := by
    rw [hcol]
    simpa using hne
  rw [if_pos hg] at h2
  simp only [List.getElem?_map, h1, Option.map_some'] at h2
  exact (Option.some.inj h2).symm

theorem regionPass_active_warnings (cols : List String) (rows : List Row)
    (hcol : cols.contains "region" = true) (hne : rows ≠ []) :
    (regionPass cols rows).2 =
      (if (rows.filter (regionBad (top4Regions (regionVals rows)))).isEmpty then []
       else [Warning.invalidRegions
              (rows.filter (regionBad (top4Regions (regionVals rows)))).length
              ((rows.filter (regionBad (top4Regions (regionVals rows)))).take 10)]) := by
  unfold regionPass
  have hg : (cols.contains "region" && !rows.isEmpty) = true := by
    rw [hcol]
    simpa using hne
  rw [if_pos hg]

/-! ## Cell-level facts about the modelled pandas routines -/

theorem toNumericCell_idem (v : Cell) :
    toNumericCell (toNumericCell v) = toNumericCell v := by
  cases v with
  | na => rfl
  | num q => rfl
  | str s =>
    cases hp : parseNum? s <;> simp [toNumericCell, hp]

theorem toNumericCell_numOrNA (v : Cell) : (toNumericCell v).numOrNA = true := by
  cases v with
  | na => rfl
  | num q => rfl
  | str s =>
    cases hp : parseNum? s <;> simp [toNumericCell, hp, Cell.numOrNA]

theorem numOrNA_isNum (v : Cell) (h1 : v.numOrNA = true) (h2 : v.isNA = false) :
    v.isNum = true := by
  cases v with
  | na => simp [Cell.isNA] at h2
  | num q => rfl
  | str s => simp [Cell.numOrNA] at h1

theorem castIntCell_ok (x v : Cell) (h : castIntCell x = Except.ok v) :
    ∃ q : Rat, x = Cell.num q ∧ v = Cell.num ((truncRat q : Int) : Rat) := by
  cases x with
  | na => simp [castIntCell] at h
  | str s => simp [castIntCell] at h
  | num q => exact ⟨q, rfl, (Except.ok.inj h).symm⟩

theorem truncRat_int (q : Rat) (h : q.den = 1) : ((truncRat q : Int) : Rat) = q := by
  have hnum : truncRat q = q.num := by
    unfold truncRat
    rw [h]
    by_cases h0 : 0 ≤ q.num
    · rw [if_pos h0]
      simp [Int.toNat_of_nonneg h0]
    · rw [if_neg h0]
      push_neg at h0
      simp only [Nat.div_one]
      omega
  rw [hnum]
  exact (Rat.den_eq_one_iff q).mp h

theorem intCast_isIntVal (n : Int) : (Cell.num ((n : Int) : Rat)).isIntVal = true := by
  simp [Cell.isIntVal, Rat.den_intCast]

/-! ## The numeric pass -/

theorem numericPass_nil (cols : List String) (rows : List Row) :
    numericPass cols rows [] = (rows, []) := rfl

theorem numericPass_cons_pos (cols : List String) (rows : List Row) (c0 : String)
    (rest : List String) (h : cols.contains c0 = true) :
    numericPass cols rows (c0 :: rest) =
      ((numericPass cols
          (rows.map (fun r => setCell r c0 (toNumericCell (getCell r c0)))) rest).1,
       (if (rows.filter (corruptRow c0)).isEmpty then []
        else [Warning.nonNumeric c0 (rows.filter (corruptRow c0)).length
               ((rows.filter (corruptRow c0)).take 10)]) ++
       (numericPass cols
          (rows.map (fun r => setCell r c0 (toNumericCell (getCell r c0)))) rest).2) := by
  rw [numericPass]
  rw [if_pos h]

theorem numericPass_cons_neg (cols : List String) (rows : List Row) (c0 : String)
    (rest : List String) (h : cols.contains c0 = false) :
    numericPass cols rows (c0 :: rest) = numericPass cols rows rest := by
  rw [numericPass]
  rw [if_neg (by rw [h]; exact Bool.false_ne_true)]

theorem numericPass_length (cols : List String) (cs : List String) (rows : List Row) :
    (numericPass cols rows cs).1.length = rows.length := by
  induction cs generalizing rows with
  | nil => rfl
  | cons c0 rest ih =>
    by_cases h : cols.contains c0 = true
    · rw [numericPass_cons_pos cols rows c0 rest h]
      simpa using (ih (rows.map (fun r => setCell r c0 (toNumericCell (getCell r c0))))).trans
        (List.length_map _ _)
    · rw [numericPass_cons_neg cols rows c0 rest (by simpa using h)]
      exact ih rows

theorem numericPass_idx (cs : List String) (cols : List String) (rows : List Row)
    (i : Nat) (r r' : Row) (h1 : rows[i]? = some r)
    (h2 : ((numericPass cols rows cs).1)[i]? = some r') :
    keys r' = keys r ∧
    (∀ c, c ∉ cs → getCell r' c = getCell r c) ∧
    (∀ c ∈ cs, cols.contains c = true → c ∈ keys r →
      getCell r' c = toNumericCell (getCell r c)) := by
  induction cs generalizing rows r with
  | nil =>
    rw [numericPass_nil, h1] at h2
    have h2' := Option.some.inj h2
    subst h2'
    exact ⟨rfl, fun _ _ => rfl, fun c hc => absurd hc (List.not_mem_nil c)⟩
  | cons c0 rest ih =>
    by_cases hc0 : cols.contains c0 = true
    · rw [numericPass_cons_pos cols rows c0 rest hc0] at h2
      have hr1 : (rows.map (fun r => setCell r c0 (toNumericCell (getCell r c0))))[i]? =
          some (setCell r c0 (toNumericCell (getCell r c0))) := by
        rw [List.getElem?_map, h1]
        rfl
      have H := ih _ _ hr1 h2
      refine ⟨H.1.trans (keys_setCell _ _ _), ?_, ?_⟩
      · intro c hc
        have hc' : c ∉ rest := fun hm => hc (List.mem_cons_of_mem _ hm)
        have hne : c ≠ c0 := fun he => hc (he ▸ List.mem_cons_self _ _)
        rw [H.2.1 c hc', getCell_setCell_ne _ _ _ _ hne]
      · intro c hc hcol hkey
        rcases List.mem_cons.mp hc with he | hm
        · subst he
          by_cases hr : c ∈ rest
          · have := H.2.2 c hr hcol (by rwa [keys_setCell])
            rw [this, getCell_setCell_self _ _ _ hkey, toNumericCell_idem]
          · rw [H.2.1 c hr, getCell_setCell_self _ _ _ hkey]
        · by_cases he : c = c0
          · subst he
            by_cases hr : c ∈ rest
            · have := H.2.2 c hr hcol (by rwa [keys_setCell])
              rw [this, getCell_setCell_self _ _ _ hkey, toNumericCell_idem]
            · rw [H.2.1 c hr, getCell_setCell_self _ _ _ hkey]
          · have := H.2.2 c hm hcol (by rwa [keys_setCell])
            rw [this, getCell_setCell_ne _ _ _ _ he]
    · rw [numericPass_cons_neg cols rows c0 rest (by simpa using hc0)] at h2
      have H := ih _ _ h1 h2
      refine ⟨H.1, ?_, ?_⟩
      · intro c hc
        exact H.2.1 c (fun hm => hc (List.mem_cons_of_mem _ hm))
      · intro c hc hcol hkey
        rcases List.mem_cons.mp hc with he | hm
        · subst he
          rw [hcol] at hc0
          exact absurd rfl hc0
        · exact H.2.2 c hm hcol hkey

/-- Projection of a numeric-repair warning to (column, corrupt count). -/
def warnCount : Warning → String × Nat
  | Warning.nonNumeric c n _ => (c, n)
  | _ => ("", 0)

theorem isEmpty_congr_length (l1 l2 : List Row) (h : l1.length = l2.length) :
    l1.isEmpty = l2.isEmpty := by
  cases l1 <;> cases l2 <;> simp_all

theorem corrupt_filter_map_set (rows : List Row) (c c0 : String) (h : c ≠ c0) :
    ((rows.map (fun r => setCell r c0 (toNumericCell (getCell r c0)))).filter
        (corruptRow c)).length = (rows.filter (corruptRow c)).length := by
  rw [List.filter_map, List.length_map]
  congr 1
  apply List.filter_congr
  intro r _
  simp only [Function.comp_apply, corruptRow]
  rw [getCell_setCell_ne _ _ _ _ h]

/-- Over distinct column names, the numeric pass reports per column
exactly the count of values that were non-missing before coercion and
missing after, computed against the rows as they entered the pass. -/
theorem numericPass_warn_proj (cs : List String) (cols : List String) (rows : List Row)
    (hnd : cs.Nodup) :
    ((numericPass cols rows cs).2).map warnCount =
      (cs.filter (fun c => cols.contains c &&
          !(rows.filter (corruptRow c)).isEmpty)).map
        (fun c => (c, (rows.filter (corruptRow c)).length)) := by
  induction cs generalizing rows with
  | nil => rfl
  | cons c0 rest ih =>
    have hnd' := List.nodup_cons.mp hnd
    by_cases hc0 : cols.contains c0 = true
    · rw [numericPass_cons_pos cols rows c0 rest hc0]
      have hrec := ih (rows.map (fun r => setCell r c0 (toNumericCell (getCell r c0)))) hnd'.2
      have hcong : (rest.filter (fun c => cols.contains c &&
            !((rows.map (fun r => setCell r c0 (toNumericCell (getCell r c0)))).filter
                (corruptRow c)).isEmpty)) =
          (rest.filter (fun c => cols.contains c && !(rows.filter (corruptRow c)).isEmpty)) := by
        apply List.filter_congr
        intro c hc
        have hne : c ≠ c0 := fun he => hnd'.1 (he ▸ hc)
        rw [isEmpty_congr_length _ _ (corrupt_filter_map_set rows c c0 hne)]
      have hcong2 : ∀ c ∈ (rest.filter (fun c => cols.contains c &&
            !(rows.filter (corruptRow c)).isEmpty)),
          (c, ((rows.map (fun r => setCell r c0 (toNumericCell (getCell r c0)))).filter
              (corruptRow c)).length) = (c, (rows.filter (corruptRow c)).length) := by
        intro c hc
        have hc' := (List.mem_filter.mp hc).1
        have hne : c ≠ c0 := fun he => hnd'.1 (he ▸ hc')
        rw [corrupt_filter_map_set rows c c0 hne]
      by_cases hb : (rows.filter (corruptRow c0)).isEmpty = true
      · rw [if_pos hb]
        simp only [List.nil_append]
        rw [hrec, hcong]
        have hsk : (List.filter (fun c => cols.contains c &&
            !(rows.filter (corruptRow c)).isEmpty) (c0 :: rest)) =
            (List.filter (fun c => cols.contains c &&
              !(rows.filter (corruptRow c)).isEmpty) rest) := by
          rw [List.filter_cons, if_neg (by rw [hc0, hb]; simp)]
        rw [hsk]
        exact List.map_congr_left hcong2
      · rw [if_neg hb]
        have hkp : (List.filter (fun c => cols.contains c &&
            !(rows.filter (corruptRow c)).isEmpty) (c0 :: rest)) =
            c0 :: (List.filter (fun c => cols.contains c &&
              !(rows.filter (corruptRow c)).isEmpty) rest) := by
          rw [List.filter_cons, if_pos (by rw [hc0]; simpa using hb)]
        rw [hkp, List.map_append, hrec, hcong, List.map_cons]
        simp only [List.map_cons, List.map_nil, warnCount, List.singleton_append]
        congr 1
        exact List.map_congr_left hcong2
    · rw [numericPass_cons_neg cols rows c0 rest (by simpa using hc0)]
      rw [ih rows hnd'.2]
      have hsk : (List.filter (fun c => cols.contains c &&
          !(rows.filter (corruptRow c)).isEmpty) (c0 :: rest)) =
          (List.filter (fun c => cols.contains c &&
            !(rows.filter (corruptRow c)).isEmpty) rest) := by
        rw [List.filter_cons]
        rw [if_neg (by simp at hc0; simp [hc0])]
      rw [hsk]

/-! ## The defaulting pass -/

theorem fillStep_length (cols : List String) (c : String) (d : Cell) (rows : List Row) :
    (fillStep cols c d rows).length = rows.length := by
  unfold fillStep
  by_cases hc : cols.contains c = true
  · rw [if_pos hc]; exact List.length_map _ _
  · rw [if_neg hc]

theorem fillStep_idx (cols : List String) (c : String) (d : Cell) (rows : List Row)
    (i : Nat) (r r' : Row) (h1 : rows[i]? = some r)
    (h2 : (fillStep cols c d rows)[i]? = some r') :
    keys r' = keys r ∧
    (∀ c', c' ≠ c → getCell r' c' = getCell r c') ∧
    (cols.contains c = true → c ∈ keys r →
      getCell r' c = (if (getCell r c).isNA = true then d else getCell r c)) := by
  unfold fillStep at h2
  by_cases hc : cols.contains c = true
  · rw [if_pos hc] at h2
    rw [List.getElem?_map, h1, Option.map_some'] at h2
    have h2' := (Option.some.inj h2).symm
    by_cases hna : (getCell r c).isNA = true
    · rw [if_pos hna] at h2'
      subst h2'
      refine ⟨keys_setCell _ _ _, ?_, ?_⟩
      · intro c' hc'
        exact getCell_setCell_ne _ _ _ _ hc'
      · intro _ hkey
        rw [if_pos hna]
        exact getCell_setCell_self _ _ _ hkey
    · rw [if_neg hna] at h2'
      subst h2'
      exact ⟨rfl, fun _ _ => rfl, fun _ _ => by rw [if_neg hna]⟩
  · rw [if_neg hc] at h2
    rw [h1] at h2
    have h2' := (Option.some.inj h2).symm
    subst h2'
    exact ⟨rfl, fun _ _ => rfl, fun hcol _ => absurd hcol hc⟩

theorem fillFold_length (ds : List (String × Cell)) (cols : List String) (rows : List Row) :
    (ds.foldl (fun rs p => fillStep cols p.1 p.2 rs) rows).length = rows.length := by
  induction ds generalizing rows with
  | nil => rfl
  | cons p rest ih =>
    rw [List.foldl_cons]
    exact (ih _).trans (fillStep_length cols p.1 p.2 rows)

theorem fillnaPass_length (cols : List String) (rows : List Row) :
    (fillnaPass cols rows).length = rows.length :=
  fillFold_length fillnaDict cols rows

theorem fillFold_idx (ds : List (String × Cell)) (cols : List String) (rows : List Row)
    (hnd : (ds.map Prod.fst).Nodup) (i : Nat) (r r' : Row)
    (h1 : rows[i]? = some r)
    (h2 : (ds.foldl (fun rs p => fillStep cols p.1 p.2 rs) rows)[i]? = some r') :
    keys r' = keys r ∧
    (∀ c, c ∉ ds.map Prod.fst → getCell r' c = getCell r c) ∧
    (∀ p ∈ ds, cols.contains p.1 = true → p.1 ∈ keys r →
      getCell r' p.1 = (if (getCell r p.1).isNA = true then p.2 else getCell r p.1)) := by
  induction ds generalizing rows r with
  | nil =>
    rw [List.foldl_nil, h1] at h2
    have h2' := (Option.some.inj h2).symm
    subst h2'
    exact ⟨rfl, fun _ _ => rfl, fun p hp => absurd hp (List.not_mem_nil p)⟩
  | cons p0 rest ih =>
    rw [List.foldl_cons] at h2
    rw [List.map_cons, List.nodup_cons] at hnd
    have hi : i < rows.length := by
      have := List.getElem?_eq_some.mp h1
      exact this.1
    have hr1 : (fillStep cols p0.1 p0.2 rows)[i]? =
        some ((fillStep cols p0.1 p0.2 rows).get ⟨i, by rw [fillStep_length]; exact hi⟩) := by
      rw [List.getElem?_eq_getElem (by rw [fillStep_length]; exact hi)]
      rfl
    have F := fillStep_idx cols p0.1 p0.2 rows i r _ h1 hr1
    have H := ih _ hnd.2 _ hr1 h2
    refine ⟨H.1.trans F.1, ?_, ?_⟩
    · intro c hc
      rw [List.map_cons, List.mem_cons] at hc
      push_neg at hc
      rw [H.2.1 c hc.2, F.2.1 c hc.1]
    · intro p hp hcol hkey
      rcases List.mem_cons.mp hp with he | hm
    -- the head entry: later steps do not touch its column
      · subst he
        have hnr : p.1 ∉ rest.map Prod.fst := hnd.1
        rw [H.2.1 p.1 hnr]
        exact F.2.2 hcol hkey
      · have hne : p.1 ≠ p0.1 := by
          intro he
          exact hnd.1 (he ▸ (List.mem_map.mpr ⟨p, hm, rfl⟩))
        have hkey1 : p.1 ∈ keys ((fillStep cols p0.1 p0.2 rows).get
            ⟨i, by rw [fillStep_length]; exact hi⟩) := by
          rw [F.1]; exact hkey
        have := H.2.2 p hm hcol hkey1
        rw [this, F.2.1 p.1 hne]

/-! ## The cast pass -/

theorem truncRat_den_one (q : Rat) (h : q.den = 1) : truncRat q = q.num := by
  unfold truncRat
  rw [h]
  by_cases h0 : 0 ≤ q.num
  · rw [if_pos h0]
    simp [Int.toNat_of_nonneg h0]
  · rw [if_neg h0]
    push_neg at h0
    simp only [Nat.div_one]
    omega

theorem truncRat_intCast (n : Int) : truncRat ((n : Int) : Rat) = n := by
  rw [truncRat_den_one _ (Rat.den_intCast n)]
  exact Rat.num_intCast n

theorem castColumn_ok (c : String) (rows rows' : List Row)
    (h : castColumn c rows = Except.ok rows') :
    rows'.length = rows.length ∧
    ∀ (i : Nat) (r r' : Row), rows[i]? = some r → rows'[i]? = some r' →
      ∃ q : Rat, getCell r c = Cell.num q ∧
        r' = setCell r c (Cell.num ((truncRat q : Int) : Rat)) := by
  induction rows generalizing rows' with
  | nil =>
    rw [castColumn] at h
    have h' := (Except.ok.inj h).symm
    subst h'
    exact ⟨rfl, fun i r r' h1 _ => by simp at h1⟩
  | cons r0 rest ih =>
    rw [castColumn] at h
    cases hv : castIntCell (getCell r0 c) with
    | error e => rw [hv] at h; exact absurd h (by simp)
    | ok v =>
      rw [hv] at h
      cases hrec : castColumn c rest with
      | error e => rw [hrec] at h; exact absurd h (by simp)
      | ok rs =>
        rw [hrec] at h
        have h' := (Except.ok.inj h).symm
        subst h'
        obtain ⟨q, hq, hvq⟩ := castIntCell_ok _ _ hv
        have IH := ih rs hrec
        constructor
        · simp [IH.1]
        · intro i r r' h1 h2
          cases i with
          | zero =>
            simp only [List.getElem?_cons_zero] at h1 h2
            have h1' := (Option.some.inj h1).symm
            have h2' := (Option.some.inj h2).symm
            subst h1'; subst h2'
            exact ⟨q, hq, by rw [hvq]⟩
          | succ n =>
            simp only [List.getElem?_cons_succ] at h1 h2
            exact IH.2 n r r' h1 h2

theorem castPass_ok (cs : List String) (cols : List String) (rows rows' : List Row)
    (h : castPass cols rows cs = Except.ok rows') :
    (∀ c ∈ cs, cols.contains c = true) ∧
    rows'.length = rows.length ∧
    ∀ (i : Nat) (r r' : Row), rows[i]? = some r → rows'[i]? = some r' →
      keys r' = keys r ∧
      (∀ c, c ∉ cs → getCell r' c = getCell r c) ∧
      (∀ c ∈ cs, c ∈ keys r → ∃ p : Rat, getCell r c = Cell.num p ∧
        getCell r' c = Cell.num ((truncRat p : Int) : Rat)) := by
  induction cs generalizing rows with
  | nil =>
    rw [castPass] at h
    have h' := (Except.ok.inj h).symm
    subst h'
    exact ⟨fun c hc => absurd hc (List.not_mem_nil c),
           rfl,
           fun i r r' h1 h2 => by
             rw [h1] at h2
             have := (Option.some.inj h2).symm
             subst this
             exact ⟨rfl, fun _ _ => rfl, fun c hc => absurd hc (List.not_mem_nil c)⟩⟩
  | cons c0 rest ih =>
    rw [castPass] at h
    by_cases hc0 : cols.contains c0 = true
    · rw [if_pos hc0] at h
      cases hcc : castColumn c0 rows with
      | error e => rw [hcc] at h; exact absurd h (by simp)
      | ok rowsA =>
        rw [hcc] at h
        have CC := castColumn_ok c0 rows rowsA hcc
        have IH := ih rowsA h
        refine ⟨?_, IH.2.1.trans CC.1, ?_⟩
        · intro c hc
          rcases List.mem_cons.mp hc with he | hm
          · exact he ▸ hc0
          · exact IH.1 c hm
        · intro i r r' h1 h2
          have hi : i < rows.length := (List.getElem?_eq_some.mp h1).1
          have hrA : rowsA[i]? = some (rowsA.get ⟨i, by rw [CC.1]; exact hi⟩) := by
            rw [List.getElem?_eq_getElem (by rw [CC.1]; exact hi)]
            rfl
          obtain ⟨q, hq, hset⟩ := CC.2 i r _ h1 hrA
          have H := IH.2.2 i _ r' hrA h2
          have hkeysA : keys (rowsA.get ⟨i, by rw [CC.1]; exact hi⟩) = keys r := by
            rw [hset]; exact keys_setCell _ _ _
          refine ⟨H.1.trans hkeysA, ?_, ?_⟩
          · intro c hc
            have hc' : c ∉ rest := fun hm => hc (List.mem_cons_of_mem _ hm)
            have hne : c ≠ c0 := fun he => hc (he ▸ List.mem_cons_self _ _)
            rw [H.2.1 c hc', hset, getCell_setCell_ne _ _ _ _ hne]
          · intro c hc hkey
            by_cases hce : c = c0
            · subst hce
              refine ⟨q, hq, ?_⟩
              have hA : getCell (rowsA.get ⟨i, by rw [CC.1]; exact hi⟩) c =
                  Cell.num ((truncRat q : Int) : Rat) := by
                rw [hset]
                exact getCell_setCell_self _ _ _ hkey
              by_cases hr : c ∈ rest
              · obtain ⟨p, hp1, hp2⟩ := H.2.2 c hr (by rw [hkeysA]; exact hkey)
                rw [hA] at hp1
                have hpq := Cell.num.inj hp1
                rw [hp2, ← hpq, truncRat_intCast]
              · rw [H.2.1 c hr, hA]
            · have hm : c ∈ rest := by
                rcases List.mem_cons.mp hc with he | hm
                · exact absurd he hce
                · exact hm
              obtain ⟨p, hp1, hp2⟩ := H.2.2 c hm (by rw [hkeysA]; exact hkey)
              rw [hset, getCell_setCell_ne _ _ _ _ hce] at hp1
              exact ⟨p, hp1, hp2⟩
    · rw [if_neg hc0] at h
      exact absurd h (by simp)

/-! ## Unfolding equations of the remediator -/

theorem datePass_eq (rows : List Row) :
    datePass rows =
      (rows.filter (fun r => dateParses (getCell r "date")),
       if (rows.filter (fun r => !(dateParses (getCell r "date")))).isEmpty then []
       else [Warning.invalidDates
              (rows.filter (fun r => !(dateParses (getCell r "date")))).length
              ((rows.filter (fun r => !(dateParses (getCell r "date")))).take 10)]) := rfl

theorem regionPass_eq_pos (cols : List String) (rows : List Row)
    (hg : (cols.contains "region" && !rows.isEmpty) = true) :
    regionPass cols rows =
      (rows.map (fun r => if regionBad (top4Regions (regionVals rows)) r
                          then setCell r "region" (Cell.str "Unknown") else r),
       if (rows.filter (regionBad (top4Regions (regionVals rows)))).isEmpty then []
       else [Warning.invalidRegions
              (rows.filter (regionBad (top4Regions (regionVals rows)))).length
              ((rows.filter (regionBad (top4Regions (regionVals rows)))).take 10)]) := by
  unfold regionPass
  rw [if_pos hg]

theorem regionPass_eq_neg (cols : List String) (rows : List Row)
    (hg : (cols.contains "region" && !rows.isEmpty) = false) :
    regionPass cols rows = (rows, []) := by
  unfold regionPass
  rw [if_neg (by rw [hg]; exact Bool.false_ne_true)]

theorem clean_empty (t : Table) (h : t.rows.isEmpty = true) :
    clean_and_validate_data t = Except.ok (t, [Warning.emptyTable]) := by
  unfold clean_and_validate_data
  rw [if_pos h]

theorem clean_no_date (t : Table) (h1 : t.rows.isEmpty = false)
    (h2 : t.cols.contains "date" = false) :
    clean_and_validate_data t = Except.error "KeyError: date" := by
  unfold clean_and_validate_data
  rw [if_neg (by rw [h1]; exact Bool.false_ne_true),
      if_neg (by rw [h2]; exact Bool.false_ne_true)]

theorem clean_eq (t : Table) (h1 : t.rows.isEmpty = false)
    (h2 : t.cols.contains "date" = true) :
    clean_and_validate_data t =
      (match castPass t.cols (fillnaPass t.cols (numericPass t.cols
          ((regionPass t.cols ((datePass t.rows).1)).1) numeric_cols).1) cast_cols with
       | Except.ok rows5 =>
         Except.ok ({ cols := t.cols, rows := rows5 },
           (datePass t.rows).2 ++ (regionPass t.cols ((datePass t.rows).1)).2 ++
             (numericPass t.cols ((regionPass t.cols ((datePass t.rows).1)).1)
               numeric_cols).2)
       | Except.error e => Except.error e) := by
  unfold clean_and_validate_data
  rw [if_neg (by rw [h1]; exact Bool.false_ne_true), if_pos h2]

/-! ## Identity of the remediator on already-clean data -/

theorem map_id_of_eq {α : Type} (l : List α) (f : α → α) (h : ∀ a ∈ l, f a = a) :
    l.map f = l := by
  induction l with
  | nil => rfl
  | cons a rest ih =>
    rw [List.map_cons, h a (List.mem_cons_self a rest),
        ih (fun b hb => h b (List.mem_cons_of_mem _ hb))]

theorem isNum_not_na (v : Cell) (h : v.isNum = true) : v.isNA = false := by
  cases v <;> simp_all [Cell.isNum, Cell.isNA]

theorem toNumericCell_of_isNum (v : Cell) (h : v.isNum = true) : toNumericCell v = v := by
  cases v <;> simp_all [Cell.isNum, toNumericCell]

theorem datePass_id (rows : List Row)
    (h : ∀ r ∈ rows, dateParses (getCell r "date") = true) :
    datePass rows = (rows, []) := by
  rw [datePass_eq]
  have hb : rows.filter (fun r => !(dateParses (getCell r "date"))) = [] :=
    List.filter_eq_nil_iff.mpr (fun r hr => by simp [h r hr])
  rw [hb, List.filter_eq_self.mpr (fun r hr => h r hr)]
  rfl

theorem regionPass_id (cols : List String) (rows : List Row)
    (h : ∀ r ∈ rows, regionBad (top4Regions (regionVals rows)) r = false) :
    regionPass cols rows = (rows, []) := by
  by_cases hg : (cols.contains "region" && !rows.isEmpty) = true
  · rw [regionPass_eq_pos cols rows hg]
    have hb : rows.filter (regionBad (top4Regions (regionVals rows))) = [] :=
      List.filter_eq_nil_iff.mpr (fun r hr => by simp [h r hr])
    rw [hb, map_id_of_eq rows _ (fun r hr => by rw [h r hr]; rfl)]
    rfl
  · exact regionPass_eq_neg cols rows (by simpa using hg)

theorem numericPass_id (cs : List String) (cols : List String) (rows : List Row)
    (h : ∀ c ∈ cs, ∀ r ∈ rows, toNumericCell (getCell r c) = getCell r c)
    (hnd : ∀ r ∈ rows, (keys r).Nodup) :
    numericPass cols rows cs = (rows, []) := by
  induction cs with
  | nil => rfl
  | cons c0 rest ih =>
    by_cases hc0 : cols.contains c0 = true
    · rw [numericPass_cons_pos _ _ _ _ hc0]
      have hmap : rows.map (fun r => setCell r c0 (toNumericCell (getCell r c0))) = rows := by
        apply map_id_of_eq
        intro r hr
        rw [h c0 (List.mem_cons_self _ _) r hr, setCell_getCell_self r c0 (hnd r hr)]
      have hbad : rows.filter (corruptRow c0) = [] := by
        apply List.filter_eq_nil_iff.mpr
        intro r hr
        simp [corruptRow, h c0 (List.mem_cons_self _ _) r hr]
      rw [hmap, hbad, ih (fun c hc r hr => h c (List.mem_cons_of_mem _ hc) r hr)]
      simp
    · rw [numericPass_cons_neg _ _ _ _ (by simpa using hc0)]
      exact ih (fun c hc r hr => h c (List.mem_cons_of_mem _ hc) r hr)

theorem fillStep_id (cols : List String) (c : String) (d : Cell) (rows : List Row)
    (h : ∀ r ∈ rows, (getCell r c).isNA = false) :
    fillStep cols c d rows = rows := by
  unfold fillStep
  by_cases hc : cols.contains c = true
  · rw [if_pos hc]
    apply map_id_of_eq
    intro r hr
    rw [if_neg (by rw [h r hr]; exact Bool.false_ne_true)]
  · rw [if_neg hc]

theorem fillFold_id (ds : List (String × Cell)) (cols : List String) (rows : List Row)
    (h : ∀ p ∈ ds, ∀ r ∈ rows, (getCell r p.1).isNA = false) :
    ds.foldl (fun rs p => fillStep cols p.1 p.2 rs) rows = rows := by
  induction ds with
  | nil => rfl
  | cons p rest ih =>
    rw [List.foldl_cons, fillStep_id cols p.1 p.2 rows (h p (List.mem_cons_self _ _)),
        ih (fun p' hp' r hr => h p' (List.mem_cons_of_mem _ hp') r hr)]

theorem castColumn_id (c : String) (rows : List Row)
    (hnd : ∀ r ∈ rows, (keys r).Nodup)
    (h : ∀ r ∈ rows, (getCell r c).isIntVal = true) :
    castColumn c rows = Except.ok rows := by
  induction rows with
  | nil => rfl
  | cons r0 rest ih =>
    rw [castColumn]
    have h0 := h r0 (List.mem_cons_self _ _)
    cases hv : getCell r0 c with
    | na => rw [hv] at h0; simp [Cell.isIntVal] at h0
    | str s => rw [hv] at h0; simp [Cell.isIntVal] at h0
    | num q =>
      rw [hv] at h0
      have hden : q.den = 1 := by simpa [Cell.isIntVal] using h0
      have hcast : castIntCell (Cell.num q) = Except.ok (Cell.num q) := by
        simp only [castIntCell]
        rw [truncRat_int q hden]
      rw [hcast,
          ih (fun r hr => hnd r (List.mem_cons_of_mem _ hr))
             (fun r hr => h r (List.mem_cons_of_mem _ hr))]
      have hset : setCell r0 c (Cell.num q) = r0 := by
        rw [← hv]
        exact setCell_getCell_self r0 c (hnd r0 (List.mem_cons_self _ _))
      simp [hset]

theorem castPass_id (cs : List String) (cols : List String) (rows : List Row)
    (hcs : ∀ c ∈ cs, cols.contains c = true)
    (hnd : ∀ r ∈ rows, (keys r).Nodup)
    (h : ∀ c ∈ cs, ∀ r ∈ rows, (getCell r c).isIntVal = true) :
    castPass cols rows cs = Except.ok rows := by
  induction cs with
  | nil => rfl
  | cons c0 rest ih =>
    rw [castPass, if_pos (hcs c0 (List.mem_cons_self _ _)),
        castColumn_id c0 rows hnd (h c0 (List.mem_cons_self _ _))]
    exact ih (fun c hc => hcs c (List.mem_cons_of_mem _ hc))
             (fun c hc r hr => h c (List.mem_cons_of_mem _ hc) r hr)

/-! ## Claims about the whole remediator -/

/-- C10: a non-empty table reaching `clean_and_validate_data` without a
`product_id` column makes the final integer-cast loop raise a KeyError;
the catch-all of `main` swallows it and no output is written. -/
theorem clean_missing_product_id_crashes (t : Table) (h1 : t.rows ≠ [])
    (h2 : t.cols.contains "date" = true)
    (h3 : t.cols.contains "product_id" = false) :
    clean_and_validate_data t = Except.error "KeyError: product_id" ∧
    finish t = none := by
  have hisE : t.rows.isEmpty = false := by
    cases hr : t.rows with
    | nil => exact absurd hr h1
    | cons a l => rfl
  have hcp : ∀ rows4 : List Row,
      castPass t.cols rows4 cast_cols = Except.error "KeyError: product_id" := by
    intro rows4
    show castPass t.cols rows4 ("product_id" :: ["users_active", "new_customers"]) = _
    rw [castPass, if_neg (by rw [h3]; exact Bool.false_ne_true)]
    rfl
  have hclean : clean_and_validate_data t = Except.error "KeyError: product_id" := by
    rw [clean_eq t hisE h2, hcp]
  exact ⟨hclean, by simp [finish, hclean]⟩

/-- C10 witness data: a long-format table (no `col_6`, no `product_id`). -/
def exLongT : Table :=
  { cols := ID_VARS, rows := [ID_VARS.map (fun c => (c, Cell.num 1))] }

/-- C10 witness: the long-format example crashes the cast and produces no
output. -/
theorem clean_missing_product_id_crashes_witness :
    clean_and_validate_data exLongT = Except.error "KeyError: product_id" ∧
    finish exLongT = none :=
  clean_missing_product_id_crashes exLongT (by decide) (by decide) (by decide)

/-- C5: on a non-empty well-formed table with nothing to repair (all
dates parse, all regions sit in the top-4 vocabulary, all six data
columns are non-missing numbers or strings of the right type, and the
three cast columns are already integral), the remediator returns the
table unchanged and emits no warnings. -/
theorem clean_idempotent (t : Table) (hWF : t.WF) (hne : t.rows ≠ [])
    (hcols : ∀ c ∈ ["date", "region", "regional_sales", "product_id", "users_active",
                    "total_sales", "new_customers"], t.cols.contains c = true)
    (hdate : ∀ r ∈ t.rows, dateParses (getCell r "date") = true)
    (hregNA : ∀ r ∈ t.rows, (getCell r "region").isNA = false)
    (hreg : ∀ r ∈ t.rows, getCell r "region" ∈ top4Regions (regionVals t.rows))
    (hnum : ∀ c ∈ numeric_cols, ∀ r ∈ t.rows, (getCell r c).isNum = true)
    (hint : ∀ c ∈ cast_cols, ∀ r ∈ t.rows, (getCell r c).isIntVal = true) :
    clean_and_validate_data t = Except.ok (t, []) := by
  have hisE : t.rows.isEmpty = false := by
    cases hr : t.rows with
    | nil => exact absurd hr hne
    | cons a l => rfl
  have hnd : ∀ r ∈ t.rows, (keys r).Nodup := fun r hr => by
    rw [hWF.2 r hr]; exact hWF.1
  have hdp : datePass t.rows = (t.rows, []) := datePass_id _ hdate
  have h1 : (datePass t.rows).1 = t.rows := by rw [hdp]
  have h1w : (datePass t.rows).2 = [] := by rw [hdp]
  have hbadf : ∀ r ∈ t.rows, regionBad (top4Regions (regionVals t.rows)) r = false := by
    intro r hr
    have hcontains : (top4Regions (regionVals t.rows)).contains (getCell r "region") = true :=
      List.elem_iff.mpr (hreg r hr)
    simp only [regionBad, hregNA r hr, hcontains]
    rfl
  have hrp : regionPass t.cols ((datePass t.rows).1) = (t.rows, []) := by
    rw [h1]; exact regionPass_id _ _ hbadf
  have h2 : (regionPass t.cols ((datePass t.rows).1)).1 = t.rows := by rw [hrp]
  have h2w : (regionPass t.cols ((datePass t.rows).1)).2 = [] := by rw [hrp]
  have hnp : numericPass t.cols ((regionPass t.cols ((datePass t.rows).1)).1)
      numeric_cols = (t.rows, []) := by
    rw [h2]
    exact numericPass_id _ _ _
      (fun c hc r hr => toNumericCell_of_isNum _ (hnum c hc r hr)) hnd
  have h3 : (numericPass t.cols ((regionPass t.cols ((datePass t.rows).1)).1)
      numeric_cols).1 = t.rows := by rw [hnp]
  have h3w : (numericPass t.cols ((regionPass t.cols ((datePass t.rows).1)).1)
      numeric_cols).2 = [] := by rw [hnp]
  have hfill : ∀ p ∈ fillnaDict, ∀ r ∈ t.rows, (getCell r p.1).isNA = false := by
    intro p hp r hr
    fin_cases hp
    · exact isNum_not_na _ (hnum "regional_sales" (by simp [numeric_cols]) r hr)
    · exact isNum_not_na _ (hnum "product_id" (by simp [numeric_cols]) r hr)
    · exact isNum_not_na _ (hnum "users_active" (by simp [numeric_cols]) r hr)
    · exact isNum_not_na _ (hnum "total_sales" (by simp [numeric_cols]) r hr)
    · exact isNum_not_na _ (hnum "new_customers" (by simp [numeric_cols]) r hr)
    · exact hregNA r hr
  have h4 : fillnaPass t.cols (numericPass t.cols
      ((regionPass t.cols ((datePass t.rows).1)).1) numeric_cols).1 = t.rows := by
    rw [h3]
    exact fillFold_id fillnaDict t.cols t.rows hfill
  have hcs : ∀ c ∈ cast_cols, t.cols.contains c = true := by
    intro c hc
    fin_cases hc
    · exact hcols "product_id" (by simp)
    · exact hcols "users_active" (by simp)
    · exact hcols "new_customers" (by simp)
  have h5 : castPass t.cols (fillnaPass t.cols (numericPass t.cols
      ((regionPass t.cols ((datePass t.rows).1)).1) numeric_cols).1) cast_cols =
      Except.ok t.rows := by
    rw [h4]
    exact castPass_id _ _ _ hcs hnd hint
  rw [clean_eq t hisE (hcols "date" (by simp)), h5]
  simp [h1w, h2w, h3w]

/-- C5 witness data: a one-row table that is already fully remediated. -/
def exCleanT : Table :=
  { cols := FINAL_COLUMNS,
    rows := [[("date", Cell.str "2024-01-01"), ("users_active", Cell.num 10),
              ("total_sales", Cell.num 500), ("new_customers", Cell.num 2),
              ("report_generated", Cell.num 1), ("region", Cell.str "East"),
              ("regional_sales", Cell.num 100), ("product_id", Cell.num 5)]] }

/-- C5 witness: remediating the clean sample table returns it unchanged
with no warnings. -/
theorem clean_idempotent_witness :
    clean_and_validate_data exCleanT = Except.ok (exCleanT, []) :=
  clean_idempotent exCleanT (by decide) (by decide) (by decide) (by decide)
    (by decide) (by decide) (by decide) (by decide)

/-- C4 counterexample data: a fully recoverable row whose regional sales
value is negative in the source. -/
def exNegT : Table :=
  { cols := FINAL_COLUMNS,
    rows := [[("date", Cell.str "2024-01-01"), ("users_active", Cell.num 1),
              ("total_sales", Cell.num 2), ("new_customers", Cell.num 3),
              ("report_generated", Cell.num 1), ("region", Cell.str "East"),
              ("regional_sales", Cell.num (-7)), ("product_id", Cell.num 4)]] }

/-- C4 counterexample: the remediator keeps a negative `regional_sales`
in the persisted output, so the output is not non-negative; moreover the
value 0 and the sentinel -1 can equally come from genuine source values,
so neither marks unrecoverability. -/
theorem clean_negative_sales_cex :
    clean_and_validate_data exNegT = Except.ok (exNegT, []) ∧
    getCell (exNegT.rows.getD 0 []) "regional_sales" = Cell.num (-7) ∧
    ¬(0 ≤ (-7 : Rat)) := by
  refine ⟨rfl, rfl, by norm_num⟩

/-- C4 amended: in every surviving output row of the remediator the
region is non-null, regional and total sales are numbers, the three cast
columns hold integers, and a row whose product id (resp. regional sales)
coerced to missing is defaulted to -1 (resp. 0); nothing constrains the
sign of recovered values. -/
theorem clean_output_types (t : Table) (hWF : t.WF)
    (hregion : t.cols.contains "region" = true)
    (hrs : t.cols.contains "regional_sales" = true)
    (hts : t.cols.contains "total_sales" = true)
    (t' : Table) (ws : List Warning)
    (hok : clean_and_validate_data t = Except.ok (t', ws)) :
    ∀ r' ∈ t'.rows, ∃ r ∈ t.rows,
      (getCell r' "region").isNA = false ∧
      (getCell r' "regional_sales").isNum = true ∧
      (getCell r' "total_sales").isNum = true ∧
      (getCell r' "product_id").isIntVal = true ∧
      (getCell r' "users_active").isIntVal = true ∧
      (getCell r' "new_customers").isIntVal = true ∧
      ((toNumericCell (getCell r "product_id")).isNA = true →
        getCell r' "product_id" = Cell.num (-1)) ∧
      ((toNumericCell (getCell r "regional_sales")).isNA = true →
        getCell r' "regional_sales" = Cell.num 0) := by
  by_cases hemp : t.rows.isEmpty = true
  · rw [clean_empty t hemp] at hok
    have ht' : t' = t := (congrArg Prod.fst (Except.ok.inj hok)).symm
    intro r' hr'
    rw [ht'] at hr'
    rw [List.isEmpty_iff.mp hemp] at hr'
    exact absurd hr' (List.not_mem_nil r')
  · have hisE : t.rows.isEmpty = false := by
      cases he : t.rows.isEmpty
      · rfl
      · exact absurd he hemp
    by_cases hdate : t.cols.contains "date" = true
    · rw [clean_eq t hisE hdate] at hok
      cases hcast : castPass t.cols (fillnaPass t.cols (numericPass t.cols
          ((regionPass t.cols ((datePass t.rows).1)).1) numeric_cols).1) cast_cols with
      | error e =>
        rw [hcast] at hok
        exact absurd hok (by simp)
      | ok rows5 =>
        rw [hcast] at hok
        have ht' : t' = { cols := t.cols, rows := rows5 } :=
          (congrArg Prod.fst (Except.ok.inj hok)).symm
        intro r' hr'
        rw [ht'] at hr'
        obtain ⟨i, hi5⟩ := List.mem_iff_getElem?.mp hr'
        have CP := castPass_ok cast_cols t.cols _ rows5 hcast
        have hlen5 : i < (fillnaPass t.cols (numericPass t.cols
            ((regionPass t.cols ((datePass t.rows).1)).1) numeric_cols).1).length := by
          rw [← CP.2.1]
          exact (List.getElem?_eq_some.mp hi5).1
        have hi4 : (fillnaPass t.cols (numericPass t.cols
            ((regionPass t.cols ((datePass t.rows).1)).1) numeric_cols).1)[i]? =
            some ((fillnaPass t.cols (numericPass t.cols
              ((regionPass t.cols ((datePass t.rows).1)).1) numeric_cols).1).get
                ⟨i, hlen5⟩) := by
          rw [List.getElem?_eq_getElem hlen5]
          rfl
        have hlen4 : i < (numericPass t.cols
            ((regionPass t.cols ((datePass t.rows).1)).1) numeric_cols).1.length := by
          rw [← fillnaPass_length t.cols]
          exact hlen5
        have hi3 : (numericPass t.cols ((regionPass t.cols ((datePass t.rows).1)).1)
            numeric_cols).1[i]? = some ((numericPass t.cols
              ((regionPass t.cols ((datePass t.rows).1)).1) numeric_cols).1.get
                ⟨i, hlen4⟩) := by
          rw [List.getElem?_eq_getElem hlen4]
          rfl
        have hlen3 : i < (regionPass t.cols ((datePass t.rows).1)).1.length := by
          rw [← numericPass_length t.cols numeric_cols]
          exact hlen4
        have hi2 : (regionPass t.cols ((datePass t.rows).1)).1[i]? =
            some ((regionPass t.cols ((datePass t.rows).1)).1.get ⟨i, hlen3⟩) := by
          rw [List.getElem?_eq_getElem hlen3]
          rfl
        have hlen2 : i < ((datePass t.rows).1).length := by
          rw [← regionPass_length t.cols]
          exact hlen3
        have hi1 : ((datePass t.rows).1)[i]? =
            some (((datePass t.rows).1).get ⟨i, hlen2⟩) := by
          rw [List.getElem?_eq_getElem hlen2]
          rfl
        set r1 := ((datePass t.rows).1).get ⟨i, hlen2⟩ with hr1def
        set r2 := (regionPass t.cols ((datePass t.rows).1)).1.get ⟨i, hlen3⟩ with hr2def
        set r3 := (numericPass t.cols ((regionPass t.cols ((datePass t.rows).1)).1)
            numeric_cols).1.get ⟨i, hlen4⟩ with hr3def
        set r4 := (fillnaPass t.cols (numericPass t.cols
            ((regionPass t.cols ((datePass t.rows).1)).1) numeric_cols).1).get
              ⟨i, hlen5⟩ with hr4def
        have hr1mem : r1 ∈ t.rows := by
          have : r1 ∈ (datePass t.rows).1 := List.mem_iff_getElem?.mpr ⟨i, hi1⟩
          rw [datePass_eq] at this
          exact List.mem_of_mem_filter this
        have hkeys1 : keys r1 = t.cols := hWF.2 r1 hr1mem
        have RP := regionPass_idx t.cols ((datePass t.rows).1) i r1 r2 hi1 hi2
        have hkeys2 : keys r2 = t.cols := RP.1.trans hkeys1
        have NP := numericPass_idx numeric_cols t.cols
          ((regionPass t.cols ((datePass t.rows).1)).1) i r2 r3 hi2 hi3
        have hkeys3 : keys r3 = t.cols := NP.1.trans hkeys2
        have FF := fillFold_idx fillnaDict t.cols _ (by decide) i r3 r4 hi3 hi4
        have hkeys4 : keys r4 = t.cols := FF.1.trans hkeys3
        have CPi := CP.2.2 i r4 r' hi4 hi5
        -- column membership facts
        have hmem_rs : "regional_sales" ∈ t.cols := List.elem_iff.mp hrs
        have hmem_ts : "total_sales" ∈ t.cols := List.elem_iff.mp hts
        have hmem_reg : "region" ∈ t.cols := List.elem_iff.mp hregion
        have hpid_contains : t.cols.contains "product_id" = true :=
          CP.1 "product_id" (by decide)
        have hua_contains : t.cols.contains "users_active" = true :=
          CP.1 "users_active" (by decide)
        have hnc_contains : t.cols.contains "new_customers" = true :=
          CP.1 "new_customers" (by decide)
        have hmem_pid : "product_id" ∈ t.cols := List.elem_iff.mp hpid_contains
        have hmem_ua : "users_active" ∈ t.cols := List.elem_iff.mp hua_contains
        have hmem_nc : "new_customers" ∈ t.cols := List.elem_iff.mp hnc_contains
        -- the numeric pass coerces the three sales-like columns
        have h3rs : getCell r3 "regional_sales" =
            toNumericCell (getCell r2 "regional_sales") :=
          NP.2.2 "regional_sales" (by decide) hrs (by rw [hkeys2]; exact hmem_rs)
        have h3ts : getCell r3 "total_sales" = toNumericCell (getCell r2 "total_sales") :=
          NP.2.2 "total_sales" (by decide) hts (by rw [hkeys2]; exact hmem_ts)
        have h3pid : getCell r3 "product_id" = toNumericCell (getCell r2 "product_id") :=
          NP.2.2 "product_id" (by decide) hpid_contains (by rw [hkeys2]; exact hmem_pid)
        -- defaulting results
        have h4rs : getCell r4 "regional_sales" =
            (if (getCell r3 "regional_sales").isNA = true then Cell.num 0
             else getCell r3 "regional_sales") :=
          FF.2.2 ("regional_sales", Cell.num 0) (by decide) hrs
            (by rw [hkeys3]; exact hmem_rs)
        have h4ts : getCell r4 "total_sales" =
            (if (getCell r3 "total_sales").isNA = true then Cell.num 0
             else getCell r3 "total_sales") :=
          FF.2.2 ("total_sales", Cell.num 0) (by decide) hts
            (by rw [hkeys3]; exact hmem_ts)
        have h4pid : getCell r4 "product_id" =
            (if (getCell r3 "product_id").isNA = true then Cell.num (-1)
             else getCell r3 "product_id") :=
          FF.2.2 ("product_id", Cell.num (-1)) (by decide) hpid_contains
            (by rw [hkeys3]; exact hmem_pid)
        have h4reg : getCell r4 "region" =
            (if (getCell r3 "region").isNA = true then Cell.str "Unknown"
             else getCell r3 "region") :=
          FF.2.2 ("region", Cell.str "Unknown") (by decide) hregion
            (by rw [hkeys3]; exact hmem_reg)
        -- the cast pass leaves the non-cast columns alone
        have h5rs : getCell r' "regional_sales" = getCell r4 "regional_sales" :=
          CPi.2.1 "regional_sales" (by decide)
        have h5ts : getCell r' "total_sales" = getCell r4 "total_sales" :=
          CPi.2.1 "total_sales" (by decide)
        have h5reg : getCell r' "region" = getCell r4 "region" :=
          CPi.2.1 "region" (by decide)
        refine ⟨r1, hr1mem, ?_, ?_, ?_, ?_, ?_, ?_, ?_, ?_⟩
        · -- region is not null
          rw [h5reg, h4reg]
          by_cases hna : (getCell r3 "region").isNA = true
          · rw [if_pos hna]
            rfl
          · rw [if_neg hna]
            cases hw : (getCell r3 "region").isNA
            · rfl
            · exact absurd hw hna
        · -- regional_sales is a number
          rw [h5rs, h4rs]
          by_cases hna : (getCell r3 "regional_sales").isNA = true
          · rw [if_pos hna]
            rfl
          · rw [if_neg hna]
            refine numOrNA_isNum _ ?_ ?_
            · rw [h3rs]
              exact toNumericCell_numOrNA _
            · cases hw : (getCell r3 "regional_sales").isNA
              · rfl
              · exact absurd hw hna
        · -- total_sales is a number
          rw [h5ts, h4ts]
          by_cases hna : (getCell r3 "total_sales").isNA = true
          · rw [if_pos hna]
            rfl
          · rw [if_neg hna]
            refine numOrNA_isNum _ ?_ ?_
            · rw [h3ts]
              exact toNumericCell_numOrNA _
            · cases hw : (getCell r3 "total_sales").isNA
              · rfl
              · exact absurd hw hna
        · -- product_id is an integer
          obtain ⟨p, _, hout⟩ := CPi.2.2 "product_id" (by decide)
            (by rw [hkeys4]; exact hmem_pid)
          rw [hout]
          exact intCast_isIntVal _
        · obtain ⟨p, _, hout⟩ := CPi.2.2 "users_active" (by decide)
            (by rw [hkeys4]; exact hmem_ua)
          rw [hout]
          exact intCast_isIntVal _
        · obtain ⟨p, _, hout⟩ := CPi.2.2 "new_customers" (by decide)
            (by rw [hkeys4]; exact hmem_nc)
          rw [hout]
          exact intCast_isIntVal _
        · -- a missing product id is defaulted to -1 and cast keeps it
          intro hna
          have h2pid : getCell r2 "product_id" = getCell r1 "product_id" :=
            RP.2.1 "product_id" (by decide)
          have h4v : getCell r4 "product_id" = Cell.num (-1) := by
            rw [h4pid, h3pid, h2pid, if_pos hna]
          obtain ⟨p, hp1, hout⟩ := CPi.2.2 "product_id" (by decide)
            (by rw [hkeys4]; exact hmem_pid)
          rw [h4v] at hp1
          have hpv : p = (-1 : Rat) := (Cell.num.inj hp1).symm
          rw [hout, hpv]
          norm_num [truncRat_den_one]
        · -- a missing regional sales value is defaulted to 0
          intro hna
          have h2rs : getCell r2 "regional_sales" = getCell r1 "regional_sales" :=
            RP.2.1 "regional_sales" (by decide)
          rw [h5rs, h4rs, h3rs, h2rs, if_pos hna]
    · have : clean_and_validate_data t = Except.error "KeyError: date" :=
        clean_no_date t hisE (by cases hd : t.cols.contains "date"
                                 · rfl
                                 · exact absurd hd hdate)
      rw [this] at hok
      exact absurd hok (by simp)

/-- C4 amended witness data: one row whose product id and regional sales
are missing in the source. -/
def exDefT : Table :=
  { cols := FINAL_COLUMNS,
    rows := [[("date", Cell.str "2024-01-01"), ("users_active", Cell.num 1),
              ("total_sales", Cell.num 2), ("new_customers", Cell.num 3),
              ("report_generated", Cell.num 1), ("region", Cell.str "East"),
              ("regional_sales", Cell.na), ("product_id", Cell.na)]] }

/-- C4 amended witness: on the defaulting example the invariants hold. -/
theorem clean_output_types_witness :
    ∃ r ∈ exDefT.rows,
      (getCell ([("date", Cell.str "2024-01-01"), ("users_active", Cell.num 1),
                 ("total_sales", Cell.num 2), ("new_customers", Cell.num 3),
                 ("report_generated", Cell.num 1), ("region", Cell.str "East"),
                 ("regional_sales", Cell.num 0), ("product_id", Cell.num (-1))] : Row)
        "region").isNA = false ∧
      (getCell ([("date", Cell.str "2024-01-01"), ("users_active", Cell.num 1),
                 ("total_sales", Cell.num 2), ("new_customers", Cell.num 3),
                 ("report_generated", Cell.num 1), ("region", Cell.str "East"),
                 ("regional_sales", Cell.num 0), ("product_id", Cell.num (-1))] : Row)
        "regional_sales").isNum = true ∧
      (getCell ([("date", Cell.str "2024-01-01"), ("users_active", Cell.num 1),
                 ("total_sales", Cell.num 2), ("new_customers", Cell.num 3),
                 ("report_generated", Cell.num 1), ("region", Cell.str "East"),
                 ("regional_sales", Cell.num 0), ("product_id", Cell.num (-1))] : Row)
        "total_sales").isNum = true ∧
      (getCell ([("date", Cell.str "2024-01-01"), ("users_active", Cell.num 1),
                 ("total_sales", Cell.num 2), ("new_customers", Cell.num 3),
                 ("report_generated", Cell.num 1), ("region", Cell.str "East"),
                 ("regional_sales", Cell.num 0), ("product_id", Cell.num (-1))] : Row)
        "product_id").isIntVal = true ∧
      (getCell ([("date", Cell.str "2024-01-01"), ("users_active", Cell.num 1),
                 ("total_sales", Cell.num 2), ("new_customers", Cell.num 3),
                 ("report_generated", Cell.num 1), ("region", Cell.str "East"),
                 ("regional_sales", Cell.num 0), ("product_id", Cell.num (-1))] : Row)
        "users_active").isIntVal = true ∧
      (getCell ([("date", Cell.str "2024-01-01"), ("users_active", Cell.num 1),
                 ("total_sales", Cell.num 2), ("new_customers", Cell.num 3),
                 ("report_generated", Cell.num 1), ("region", Cell.str "East"),
                 ("regional_sales", Cell.num 0), ("product_id", Cell.num (-1))] : Row)
        "new_customers").isIntVal = true ∧
      ((toNumericCell (getCell r "product_id")).isNA = true →
        getCell ([("date", Cell.str "2024-01-01"), ("users_active", Cell.num 1),
                  ("total_sales", Cell.num 2), ("new_customers", Cell.num 3),
                  ("report_generated", Cell.num 1), ("region", Cell.str "East"),
                  ("regional_sales", Cell.num 0), ("product_id", Cell.num (-1))] : Row)
          "product_id" = Cell.num (-1)) ∧
      ((toNumericCell (getCell r "regional_sales")).isNA = true →
        getCell ([("date", Cell.str "2024-01-01"), ("users_active", Cell.num 1),
                  ("total_sales", Cell.num 2), ("new_customers", Cell.num 3),
                  ("report_generated", Cell.num 1), ("region", Cell.str "East"),
                  ("regional_sales", Cell.num 0), ("product_id", Cell.num (-1))] : Row)
          "regional_sales" = Cell.num 0) := by
  have h := clean_output_types exDefT (by decide) (by decide) (by decide) (by decide)
    _ _ rfl
  exact h _ (by decide)

/-- C2 counterexample data: the scenario record, embedded in a table with
the full output schema (as when other rows provide the other columns). -/
def exC2T : Table :=
  { cols := FINAL_COLUMNS,
    rows := [alignRow FINAL_COLUMNS
      (sampleBase ++ [("region", Cell.str "East"), ("regional_sales", Cell.num 5)])] }

/-- The row the pipeline actually produces for the C2 scenario. -/
def exC2Out : Row :=
  [("date", Cell.str "2024-01-01"), ("users_active", Cell.num 10),
   ("total_sales", Cell.num 500), ("new_customers", Cell.num 2),
   ("report_generated", Cell.num 1), ("region", Cell.str "East"),
   ("regional_sales", Cell.num 5), ("product_id", Cell.num (-1))]

/-- C2 counterexample: for the row with `col_2` empty the unpivoter emits
one record whose single number lands in `regional_sales`, and after
remediation the record carries `regional_sales = 5` and
`product_id = -1` - not `regional_sales = 0` and `product_id = 5`. -/
theorem unpivot_shifted_scenario_cex :
    unpivotRowRecords sampleBase [Cell.str "East", Cell.na, Cell.num 5] =
      [sampleBase ++ [("region", Cell.str "East"), ("regional_sales", Cell.num 5)]] ∧
    clean_and_validate_data exC2T =
      Except.ok ({ cols := FINAL_COLUMNS, rows := [exC2Out] }, []) ∧
    getCell exC2Out "regional_sales" = Cell.num 5 ∧
    getCell exC2Out "product_id" = Cell.num (-1) ∧
    ¬(getCell exC2Out "regional_sales" = Cell.num 0 ∧
      getCell exC2Out "product_id" = Cell.num 5) := by
  exact ⟨rfl, rfl, rfl, rfl, by decide⟩

/-- C8: the date-repair pass drops exactly the rows whose date fails the
(lenient) parse, keeps every parsing row unchanged and in order, and
reports the dropped count with a sample of at most 10 rows. -/
theorem date_repair (rows : List Row) (_hne : rows ≠ []) :
    (datePass rows).1 = rows.filter (fun r => dateParses (getCell r "date")) ∧
    List.Sublist (datePass rows).1 rows ∧
    (∀ r ∈ rows, dateParses (getCell r "date") = true → r ∈ (datePass rows).1) ∧
    (∀ r ∈ (datePass rows).1, dateParses (getCell r "date") = true) ∧
    ((datePass rows).2 =
      if (rows.filter (fun r => !(dateParses (getCell r "date")))).isEmpty then []
      else [Warning.invalidDates
             (rows.filter (fun r => !(dateParses (getCell r "date")))).length
             ((rows.filter (fun r => !(dateParses (getCell r "date")))).take 10)]) ∧
    ((rows.filter (fun r => !(dateParses (getCell r "date")))).take 10).length ≤ 10 := by
  refine ⟨rfl, ?_, ?_, ?_, rfl, ?_⟩
  · rw [datePass_eq]
    exact List.filter_sublist rows
  · intro r hr hp
    rw [datePass_eq]
    exact List.mem_filter.mpr ⟨hr, hp⟩
  · intro r hr
    rw [datePass_eq] at hr
    exact (List.mem_filter.mp hr).2
  · exact List.length_take_le _ _

/-- C8 witness data: one valid date and one invalid date. -/
def exDRows : List Row :=
  [[("date", Cell.str "2024-01-01")], [("date", Cell.str "not-a-date")]]

/-- C8 witness: only the "not-a-date" row is dropped, and it is reported
with count 1. -/
theorem date_repair_witness :
    (datePass exDRows).1 = [[("date", Cell.str "2024-01-01")]] ∧
    (datePass exDRows).2 = [Warning.invalidDates 1 [[("date", Cell.str "not-a-date")]]] := by
  have h := date_repair exDRows (by decide)
  exact ⟨h.1.trans (by rfl), (h.2.2.2.2.1).trans (by rfl)⟩

/-! ## Schema validation -/

theorem contains_eq_false_of_not_mem (l : List String) (c : String) (h : c ∉ l) :
    l.contains c = false := by
  cases hc : l.contains c with
  | false => rfl
  | true => exact absurd (List.elem_iff.mp hc) h

theorem contains_append_single_ne (l : List String) (a b : String) (h : b ≠ a) :
    (l ++ [a]).contains b = l.contains b := by
  apply Bool.eq_iff_iff.mpr
  constructor
  · intro h1
    rcases List.mem_append.mp (List.elem_iff.mp h1) with hm | hm
    · exact List.elem_iff.mpr hm
    · exact absurd (List.mem_singleton.mp hm) h
  · intro h1
    exact List.elem_iff.mpr (List.mem_append.mpr (Or.inl (List.elem_iff.mp h1)))

theorem getCell_const_list (cs : List String) (c : String) (v : Cell) (h : c ∈ cs) :
    getCell (cs.map (fun c => (c, v))) c = v := by
  induction cs with
  | nil => exact absurd h (List.not_mem_nil c)
  | cons k rest ih =>
    rw [List.map_cons, getCell_cons]
    by_cases hk : k = c
    · rw [if_pos hk]
    · rw [if_neg hk]
      exact ih (by
        rcases List.mem_cons.mp h with he | hm
        · exact absurd he.symm hk
        · exact hm)

theorem validate_schema_foldl (cs : List String) (t : Table) (ws0 : List Warning)
    (hnd : cs.Nodup) :
    cs.foldl
      (fun acc c =>
        if acc.1.cols.contains c then acc
        else ({ cols := acc.1.cols ++ [c],
                rows := acc.1.rows.map (fun r => r ++ [(c, Cell.num 0)]) },
              acc.2 ++ [Warning.missingColumn c]))
      (t, ws0) =
    ({ cols := t.cols ++ (cs.filter (fun c => !(t.cols.contains c))),
       rows := t.rows.map (fun r =>
         r ++ (cs.filter (fun c => !(t.cols.contains c))).map (fun c => (c, Cell.num 0))) },
     ws0 ++ (cs.filter (fun c => !(t.cols.contains c))).map Warning.missingColumn) := by
  induction cs generalizing t ws0 with
  | nil =>
    simp only [List.foldl_nil, List.filter_nil, List.append_nil, List.map_nil,
      List.map_id']
  | cons c cs' ih =>
    have hnd' := List.nodup_cons.mp hnd
    rw [List.foldl_cons]
    by_cases hc : t.cols.contains c = true
    · rw [if_pos hc, ih t ws0 hnd'.2]
      have hfc : (c :: cs').filter (fun c' => !(t.cols.contains c')) =
          cs'.filter (fun c' => !(t.cols.contains c')) := by
        rw [List.filter_cons, if_neg (by rw [hc]; simp)]
      rw [hfc]
    · rw [if_neg hc]
      rw [ih _ _ hnd'.2]
      have hcF : t.cols.contains c = false := by
        cases hcc : t.cols.contains c
        · rfl
        · exact absurd hcc hc
      have hfil : cs'.filter (fun c' => !((t.cols ++ [c]).contains c')) =
          cs'.filter (fun c' => !(t.cols.contains c')) := by
        apply List.filter_congr
        intro c' hc'
        have hne : c' ≠ c := fun he => hnd'.1 (he ▸ hc')
        rw [contains_append_single_ne t.cols c c' hne]
      have hfc : (c :: cs').filter (fun c' => !(t.cols.contains c')) =
          c :: cs'.filter (fun c' => !(t.cols.contains c')) := by
        rw [List.filter_cons, if_pos (by rw [hcF]; simp)]
      rw [hfil, hfc]
      simp [List.map_map, Function.comp_def, List.append_assoc]

theorem validate_schema_eq (t : Table) :
    validate_schema t =
      ({ cols := t.cols ++ (ID_VARS.filter (fun c => !(t.cols.contains c))),
         rows := t.rows.map (fun r =>
           r ++ (ID_VARS.filter (fun c => !(t.cols.contains c))).map
             (fun c => (c, Cell.num 0))) },
       (ID_VARS.filter (fun c => !(t.cols.contains c))).map Warning.missingColumn) := by
  unfold validate_schema
  rw [validate_schema_foldl ID_VARS t [] (by decide)]
  rw [List.nil_append]

/-- C9: schema validation returns a table containing every required
identifying column, appending each absent one with default 0 and one
warning per added column; it never removes or renames columns and never
changes the value of a column already present. -/
theorem validate_schema_spec (t : Table) (hWF : t.WF) :
    (∀ c ∈ ID_VARS, c ∈ (validate_schema t).1.cols) ∧
    ((validate_schema t).1.cols =
      t.cols ++ ID_VARS.filter (fun c => !(t.cols.contains c))) ∧
    ((validate_schema t).1.rows.length = t.rows.length) ∧
    (∀ (i : Nat) (r r' : Row), t.rows[i]? = some r →
      (validate_schema t).1.rows[i]? = some r' →
      (∀ c ∈ t.cols, getCell r' c = getCell r c) ∧
      (∀ c ∈ ID_VARS, c ∉ t.cols → getCell r' c = Cell.num 0)) ∧
    ((validate_schema t).2 =
      (ID_VARS.filter (fun c => !(t.cols.contains c))).map Warning.missingColumn) := by
  rw [validate_schema_eq]
  refine ⟨?_, rfl, List.length_map _ _, ?_, rfl⟩
  · intro c hc
    by_cases hm : c ∈ t.cols
    · exact List.mem_append.mpr (Or.inl hm)
    · refine List.mem_append.mpr (Or.inr ?_)
      refine List.mem_filter.mpr ⟨hc, ?_⟩
      rw [contains_eq_false_of_not_mem t.cols c hm]
      rfl
  · intro i r r' h1 h2
    rw [List.getElem?_map, h1, Option.map_some'] at h2
    have h2' := (Option.some.inj h2).symm
    subst h2'
    have hkeys : keys r = t.cols := hWF.2 r (List.mem_iff_getElem?.mpr ⟨i, h1⟩)
    constructor
    · intro c hc
      exact getCell_append_left r _ c (by rw [hkeys]; exact hc)
    · intro c hc hm
      rw [getCell_append_right r _ c (by rw [hkeys]; exact hm)]
      apply getCell_const_list
      refine List.mem_filter.mpr ⟨hc, ?_⟩
      rw [contains_eq_false_of_not_mem t.cols c hm]
      rfl

/-- C9 witness data: a raw table missing four identifying columns. -/
def exVST : Table :=
  { cols := ["date", "extra"], rows := [[("date", Cell.str "x"), ("extra", Cell.num 7)]] }

/-- C9 witness: the absent identifying columns are appended with default
0 and warned about; the present columns keep their values. -/
theorem validate_schema_spec_witness :
    (validate_schema exVST).1.cols =
      ["date", "extra", "users_active", "total_sales", "new_customers",
       "report_generated"] ∧
    getCell ((validate_schema exVST).1.rows.getD 0 []) "extra" = Cell.num 7 ∧
    getCell ((validate_schema exVST).1.rows.getD 0 []) "users_active" = Cell.num 0 ∧
    (validate_schema exVST).2 =
      [Warning.missingColumn "users_active", Warning.missingColumn "total_sales",
       Warning.missingColumn "new_customers", Warning.missingColumn "report_generated"] := by
  have h := validate_schema_spec exVST (by decide)
  have hrow := h.2.2.2.1 0 [("date", Cell.str "x"), ("extra", Cell.num 7)]
    ((validate_schema exVST).1.rows.getD 0 []) rfl rfl
  refine ⟨h.2.1.trans (by rfl), ?_, ?_, h.2.2.2.2.trans (by rfl)⟩
  · exact hrow.1 "extra" (by decide)
  · exact hrow.2 "users_active" (by decide) (by decide)

/-! ## The categorical and numeric repair claims -/

theorem contains_cell_eq_false_of_not_mem (l : List Cell) (c : Cell) (h : c ∉ l) :
    l.contains c = false := by
  cases hc : l.contains c with
  | false => rfl
  | true => exact absurd (List.elem_iff.mp hc) h

/-- C6: with a non-empty `region` column present, the pass computes the
4-most-frequent vocabulary (every kept value is at least as frequent as
every excluded one), rewrites exactly the non-missing values outside it
to "Unknown" while leaving missing values and other columns untouched,
and reports the rewritten rows with their count and a sample. -/
theorem region_repair (cols : List String) (rows : List Row)
    (hWFrows : ∀ r ∈ rows, keys r = cols)
    (hcol : cols.contains "region" = true) (hne : rows ≠ []) :
    (∀ v ∈ top4Regions (regionVals rows), v ∈ regionVals rows) ∧
    (∀ v ∈ top4Regions (regionVals rows), ∀ w ∈ regionVals rows,
      w ∉ top4Regions (regionVals rows) →
      (regionVals rows).count w ≤ (regionVals rows).count v) ∧
    ((regionPass cols rows).1.length = rows.length) ∧
    (∀ (i : Nat) (r r' : Row), rows[i]? = some r →
      ((regionPass cols rows).1)[i]? = some r' →
      ((getCell r "region").isNA = true → r' = r) ∧
      (getCell r "region" ∈ top4Regions (regionVals rows) → r' = r) ∧
      ((getCell r "region").isNA = false →
        getCell r "region" ∉ top4Regions (regionVals rows) →
        getCell r' "region" = Cell.str "Unknown" ∧
        (∀ c, c ≠ "region" → getCell r' c = getCell r c))) ∧
    ((regionPass cols rows).2 =
      if (rows.filter (regionBad (top4Regions (regionVals rows)))).isEmpty then []
      else [Warning.invalidRegions
             (rows.filter (regionBad (top4Regions (regionVals rows)))).length
             ((rows.filter (regionBad (top4Regions (regionVals rows)))).take 10)]) := by
  refine ⟨top4_subset _, fun v hv w hw hnw => top4_dominates _ v w hv hw hnw,
    regionPass_length cols rows, ?_, regionPass_active_warnings cols rows hcol hne⟩
  intro i r r' h1 h2
  have hact := regionPass_active_idx cols rows hcol hne i r r' h1 h2
  refine ⟨?_, ?_, ?_⟩
  · intro hna
    rw [hact, if_neg (by simp [regionBad, hna])]
  · intro hmem
    have hcontains : (top4Regions (regionVals rows)).contains (getCell r "region") = true :=
      List.elem_iff.mpr hmem
    rw [hact, if_neg (by simp only [regionBad, hcontains]; simp)]
  · intro hna hnm
    have hcontains : (top4Regions (regionVals rows)).contains (getCell r "region") = false :=
      contains_cell_eq_false_of_not_mem _ _ hnm
    have hbad : regionBad (top4Regions (regionVals rows)) r = true := by
      simp only [regionBad, hna, hcontains]
      simp
    rw [hact, if_pos hbad]
    constructor
    · apply getCell_setCell_self
      rw [hWFrows r (List.mem_iff_getElem?.mpr ⟨i, h1⟩)]
      exact List.elem_iff.mp hcol
    · intro c hc
      exact getCell_setCell_ne _ _ _ _ hc

/-- C6 witness data: four regions seen twice each and "Atlantis" once. -/
def atlRows : List Row :=
  [[("region", Cell.str "A")], [("region", Cell.str "A")],
   [("region", Cell.str "B")], [("region", Cell.str "B")],
   [("region", Cell.str "C")], [("region", Cell.str "C")],
   [("region", Cell.str "D")], [("region", Cell.str "D")],
   [("region", Cell.str "Atlantis")]]

/-- C6 witness: "Atlantis" is rewritten to "Unknown" and reported with
count 1; a vocabulary row is untouched. -/
theorem region_repair_witness :
    getCell (((regionPass ["region"] atlRows).1).getD 8 []) "region" =
      Cell.str "Unknown" ∧
    ((regionPass ["region"] atlRows).1).getD 0 [] = [("region", Cell.str "A")] ∧
    (regionPass ["region"] atlRows).2 =
      [Warning.invalidRegions 1 [[("region", Cell.str "Atlantis")]]] := by
  have h := region_repair ["region"] atlRows (by decide) (by decide) (by decide)
  refine ⟨?_, ?_, h.2.2.2.2.trans (by rfl)⟩
  · have h8 := h.2.2.2.1 8 [("region", Cell.str "Atlantis")]
      (((regionPass ["region"] atlRows).1).getD 8 []) (by rfl) (by rfl)
    exact (h8.2.2 (by decide) (by decide)).1
  · have h0 := h.2.2.2.1 0 [("region", Cell.str "A")]
      (((regionPass ["region"] atlRows).1).getD 0 []) (by rfl) (by rfl)
    exact h0.2.1 (by decide)

/-- The default the fillna dict assigns to each numeric column. -/
def fillDefault (c : String) : Cell :=
  if c = "product_id" then Cell.num (-1) else Cell.num 0

/-- C7: the numeric pass reports, per present numeric column, exactly
the values that were non-missing before coercion and missing after
(already-missing values are not counted), coerces each present numeric
column, and the subsequent defaulting replaces the coerced-to-missing
values with the column default. -/
theorem numeric_repair (cols : List String) (rows : List Row)
    (hWFrows : ∀ r ∈ rows, keys r = cols) :
    (((numericPass cols rows numeric_cols).2).map warnCount =
      (numeric_cols.filter (fun c => cols.contains c &&
        !(rows.filter (corruptRow c)).isEmpty)).map
          (fun c => (c, (rows.filter (corruptRow c)).length))) ∧
    ((numericPass cols rows numeric_cols).1.length = rows.length) ∧
    (∀ (i : Nat) (r r' : Row), rows[i]? = some r →
      ((numericPass cols rows numeric_cols).1)[i]? = some r' →
      (∀ c, c ∉ numeric_cols → getCell r' c = getCell r c) ∧
      (∀ c ∈ numeric_cols, cols.contains c = true →
        getCell r' c = toNumericCell (getCell r c))) ∧
    (∀ (i : Nat) (r r4 : Row), rows[i]? = some r →
      (fillnaPass cols (numericPass cols rows numeric_cols).1)[i]? = some r4 →
      ∀ c ∈ numeric_cols, cols.contains c = true →
        getCell r4 c = (if (toNumericCell (getCell r c)).isNA = true
                        then fillDefault c else toNumericCell (getCell r c))) := by
  refine ⟨numericPass_warn_proj numeric_cols cols rows (by decide),
    numericPass_length cols numeric_cols rows, ?_, ?_⟩
  · intro i r r' h1 h2
    have NP := numericPass_idx numeric_cols cols rows i r r' h1 h2
    refine ⟨NP.2.1, ?_⟩
    intro c hc hcol
    refine NP.2.2 c hc hcol ?_
    rw [hWFrows r (List.mem_iff_getElem?.mpr ⟨i, h1⟩)]
    exact List.elem_iff.mp hcol
  · intro i r r4 h1 h4 c hc hcol
    have hi : i < rows.length := (List.getElem?_eq_some.mp h1).1
    have hlen3 : i < (numericPass cols rows numeric_cols).1.length := by
      rw [numericPass_length]
      exact hi
    have hi3 : (numericPass cols rows numeric_cols).1[i]? =
        some ((numericPass cols rows numeric_cols).1.get ⟨i, hlen3⟩) := by
      rw [List.getElem?_eq_getElem hlen3]
      rfl
    have NP := numericPass_idx numeric_cols cols rows i r _ h1 hi3
    have hkeysr : keys r = cols := hWFrows r (List.mem_iff_getElem?.mpr ⟨i, h1⟩)
    have hmem : c ∈ cols := List.elem_iff.mp hcol
    have FF := fillFold_idx fillnaDict cols _ (by decide) i _ r4 hi3 h4
    have hdict : (c, fillDefault c) ∈ fillnaDict := by
      simp only [numeric_cols, List.mem_cons, List.not_mem_nil, or_false] at hc
      rcases hc with rfl | rfl | rfl | rfl | rfl <;> decide
    have h4c := FF.2.2 (c, fillDefault c) hdict hcol
      (by rw [NP.1, hkeysr]; exact hmem)
    rw [h4c, NP.2.2 c hc hcol (by rw [hkeysr]; exact hmem)]

/-- C7 witness data: one row whose `total_sales` is the text "N/A". -/
def exNRows : List Row := [[("total_sales", Cell.str "N/A")]]

/-- C7 witness: the "N/A" cell is reported as one corrupted value in
`total_sales`, coerced to missing and then defaulted to 0. -/
theorem numeric_repair_witness :
    ((numericPass ["total_sales"] exNRows numeric_cols).2).map warnCount =
      [("total_sales", 1)] ∧
    getCell ((fillnaPass ["total_sales"]
        (numericPass ["total_sales"] exNRows numeric_cols).1).getD 0 [])
      "total_sales" = Cell.num 0 := by
  have h := numeric_repair ["total_sales"] exNRows (by decide)
  refine ⟨h.1.trans (by rfl), ?_⟩
  have h4 := h.2.2.2 0 [("total_sales", Cell.str "N/A")]
    ((fillnaPass ["total_sales"]
      (numericPass ["total_sales"] exNRows numeric_cols).1).getD 0 [])
    (by rfl) (by rfl) "total_sales" (by decide) (by decide)
  exact h4.trans (by rfl)
